import Mathlib

/-!
Verification development for the mcp-feature-cache repository.

Shallow embedding of the extraction-orchestration-and-cache subsystem:
  * `FeatureDatabase` (src/db/database.ts, concatenated into
    src/express-mcp-server.ts): upsertResource, getResource, storeFeatures,
    queryFeatures, cleanExpiredFeatures, getExtractors.
  * `ResourceLoader` (src/core/resource-loader.ts): loadFile / loadUrl / load.
  * `DirectFeatureOrchestrator` (src/core/direct-orchestrator.ts):
    extractFeatures, the built-in extractors and shouldExtractFeature.
  * `FeatureOrchestrator` (src/core/orchestrator.ts): the MCP-extractor based
    variant with Promise.allSettled aggregation.

External collaborators (filesystem, network fetch, sha256, sharp, ffmpeg,
OpenAI embeddings, MCP tool calls) are modelled as fields of an `Env` record
of total functions: the spec treats them as opaque capability providers.
Random UUID row ids and the free-form metadata maps are omitted from the
model (no claim depends on them); JS `Date.now()` is an explicit `now`
parameter; JSON.stringify is modelled as a deterministic brace-free
rendering of the same fields.
-/

namespace FeatureStore

/-- ErrorCode from src/types/errors.ts. -/
inductive ErrorCode where
  | extractorUnavailable
  | extractorTimeout
  | extractionFailed
  | mcpConnectionFailed
  | invalidToolResponse
  | resourceNotFound
  | invalidUrl
  | ttlExceeded
  | databaseError
  | extractorNotFound
deriving DecidableEq, Repr

/-- FeatureStoreError from src/types/errors.ts (code + message; the optional
extractor/context payload is not used by any claim). -/
structure FeatureStoreError where
  code : ErrorCode
  message : String
deriving DecidableEq, Repr

/-- FeatureType from src/types/index.ts (value_type CHECK constraint of the
features table). -/
inductive FeatureType where
  | text
  | number
  | binary
  | embedding
  | json
deriving DecidableEq, Repr

/-- ResourceType from src/types/index.ts. -/
inductive ResourceType where
  | file
  | url
  | directory
deriving DecidableEq, Repr

/-- Extraction mode ('minimal' | 'standard' | 'maximal'). -/
inductive Mode where
  | minimal
  | standard
  | maximal
deriving DecidableEq, Repr

/-- A row of the resources table / the Resource record. -/
structure Resource where
  url : String
  type : ResourceType
  lastProcessed : Nat
  checksum : String
  size : Nat
  mimeType : String
deriving DecidableEq, Repr

/-- A Feature object / a row of the features table.  The random uuid `id`
column and the metadata map are omitted (ON CONFLICT upserts never change the
id, and no claim mentions either field). -/
structure Feature where
  resourceUrl : String
  featureKey : String
  value : String
  valueType : FeatureType
  generatedAt : Nat
  ttl : Nat
  expiresAt : Nat
  extractorTool : String
deriving DecidableEq, Repr

/-- The shape passed to FeatureDatabase.storeFeatures. -/
structure FeatureInput where
  key : String
  value : String
  type : FeatureType
  ttl : Option Nat
  extractorTool : String
deriving DecidableEq, Repr

/-- A row of the extractor_registry table. -/
structure ExtractorRegistration where
  toolName : String
  serverUrl : String
  capabilities : List String
  priority : Nat
  enabled : Bool
deriving DecidableEq, Repr

/-- The embedded SQLite database: resources, features (with a UNIQUE
(resource_url, feature_key) constraint maintained by the upserts) and the
extractor registry. -/
structure DB where
  resources : List Resource
  features : List Feature
  extractors : List ExtractorRegistration
deriving DecidableEq, Repr

/-- JS `x || d` on an optional number: undefined and 0 are falsy. -/
def jsOrNat (x : Option Nat) (d : Nat) : Nat :=
  match x with
  | none => d
  | some v => if v = 0 then d else v

/-- JS `x || d` on an optional string: undefined and the empty string are
falsy. -/
def jsOrString (x : Option String) (d : String) : String :=
  match x with
  | none => d
  | some s => if s = "" then d else s

/-! ## FeatureDatabase (src/db/database.ts) -/

/-- INSERT ... ON CONFLICT(url) DO UPDATE of upsertResource, on the list of
resource rows: the conflicting row keeps its url and `type` column (the DO
UPDATE clause sets only last_processed, checksum, size and mime_type). -/
def upsertResourceList (l : List Resource) (r : Resource) : List Resource :=
  if l.any (fun x => x.url == r.url) then
    l.map (fun x =>
      if x.url == r.url then
        { x with lastProcessed := r.lastProcessed, checksum := r.checksum,
                 size := r.size, mimeType := r.mimeType }
      else x)
  else
    l ++ [r]

/-- FeatureDatabase.upsertResource. -/
def upsertResource (db : DB) (r : Resource) : DB :=
  { db with resources := upsertResourceList db.resources r }

/-- FeatureDatabase.getResource: SELECT * FROM resources WHERE url = ?. -/
def getResource (db : DB) (url : String) : Option Resource :=
  db.resources.find? (fun x => x.url == url)

/-- The row written (or overwritten) by storeFeatures for one input feature:
ttl = feature.ttl || 3600 and expires_at = now + ttl, computed at write
time. -/
def featureRowOfInput (resourceUrl : String) (i : FeatureInput) (now : Nat) : Feature :=
  let ttl := jsOrNat i.ttl 3600
  { resourceUrl := resourceUrl, featureKey := i.key, value := i.value,
    valueType := i.type, generatedAt := now, ttl := ttl,
    expiresAt := now + ttl, extractorTool := i.extractorTool }

/-- INSERT ... ON CONFLICT(resource_url, feature_key) DO UPDATE on the list of
feature rows: an existing row for the same (resource_url, feature_key) pair is
overwritten in place, otherwise the row is appended. -/
def upsertFeatureRow (l : List Feature) (row : Feature) : List Feature :=
  if l.any (fun f => f.resourceUrl == row.resourceUrl && f.featureKey == row.featureKey) then
    l.map (fun f =>
      if f.resourceUrl == row.resourceUrl && f.featureKey == row.featureKey then
        { f with value := row.value, valueType := row.valueType,
                 generatedAt := row.generatedAt, ttl := row.ttl,
                 expiresAt := row.expiresAt, extractorTool := row.extractorTool }
      else f)
  else
    l ++ [row]

/-- FeatureDatabase.storeFeatures: transactional batch upsert; each feature's
expiry is computed as now + (feature.ttl || 3600) at write time. -/
def storeFeatures (db : DB) (resourceUrl : String) (features : List FeatureInput)
    (now : Nat) : DB :=
  let rows := features.foldl
    (fun l i => upsertFeatureRow l (featureRowOfInput resourceUrl i now)) db.features
  { db with features := rows }

/-- The filter argument of FeatureDatabase.queryFeatures. -/
structure QueryParams where
  url : Option String
  featureKeys : List String
  extractors : List String
  includeExpired : Bool
deriving DecidableEq, Repr

/-- The WHERE clause of queryFeatures: each provided filter must match; when
includeExpired is false the row must satisfy expires_at > now. -/
def matchesQuery (p : QueryParams) (now : Nat) (f : Feature) : Bool :=
  (match p.url with | none => true | some u => f.resourceUrl == u) &&
  (p.featureKeys.isEmpty || p.featureKeys.contains f.featureKey) &&
  (p.extractors.isEmpty || p.extractors.contains f.extractorTool) &&
  (p.includeExpired || decide (now < f.expiresAt))

/-- FeatureDatabase.queryFeatures. -/
def queryFeatures (db : DB) (p : QueryParams) (now : Nat) : List Feature :=
  db.features.filter (matchesQuery p now)

/-- FeatureDatabase.cleanExpiredFeatures: DELETE FROM features WHERE
expires_at < now, returning the number of deleted rows. -/
def cleanExpiredFeatures (db : DB) (now : Nat) : DB × Nat :=
  let remaining := db.features.filter (fun f => !(decide (f.expiresAt < now)))
  ({ db with features := remaining }, db.features.length - remaining.length)

/-- FeatureDatabase.getExtractors with enabled = true and a capability filter
(the ORDER BY priority, tool_name clause is order-irrelevant to every claim
and is modelled by keeping insertion order). -/
def getEnabledExtractors (db : DB) (capability : String) : List ExtractorRegistration :=
  (db.extractors.filter (fun e => e.enabled)).filter
    (fun e => e.capabilities.contains capability)

/-! ## Kernel-computable string primitives

The string operations used by the source (String.prototype.startsWith /
endsWith / split / substring / join) are modelled by structurally recursive
functions over the character list so that concrete runs reduce inside the
kernel. -/

/-- Does the second character list begin the first? -/
def charsBegin : List Char → List Char → Bool
  | _, [] => true
  | [], _ :: _ => false
  | c :: cs, d :: ds => c == d && charsBegin cs ds

/-- JS s.startsWith(p). -/
def strStartsWith (s p : String) : Bool :=
  charsBegin s.data p.data

/-- JS s.endsWith(p). -/
def strEndsWith (s p : String) : Bool :=
  charsBegin s.data.reverse p.data.reverse

/-- Split off everything before and after the first occurrence of `sep`. -/
def splitFirst (sep : List Char) : List Char → Option (List Char × List Char)
  | [] => none
  | c :: cs =>
    if charsBegin (c :: cs) sep then some ([], (c :: cs).drop sep.length)
    else
      match splitFirst sep cs with
      | some (pre, rest) => some (c :: pre, rest)
      | none => none

/-- Iterated splitting on a (non-empty) separator, fuelled by the string
length. -/
def splitChars (sep : List Char) : Nat → List Char → List (List Char)
  | 0, l => [l]
  | Nat.succ fuel, l =>
    match splitFirst sep l with
    | none => [l]
    | some (pre, rest) => pre :: splitChars sep fuel rest

/-- JS s.split(sep) for a non-empty literal separator. -/
def strSplitOn (s sep : String) : List String :=
  (splitChars sep.data (s.data.length + 1) s.data).map (fun cs => String.mk cs)

/-- JS s.substring(0, n). -/
def strTake (s : String) (n : Nat) : String :=
  String.mk (s.data.take n)

/-- Split at every character satisfying the predicate (used for the \s+ word
split: splitting at each whitespace character and dropping empty pieces gives
the same word list). -/
def splitPred (p : Char → Bool) : List Char → List (List Char)
  | [] => [[]]
  | c :: cs =>
    let r := splitPred p cs
    if p c then [] :: r
    else
      match r with
      | [] => [[c]]
      | h :: t => (c :: h) :: t

/-- The word split of the text extractor. -/
def strSplitWhitespace (s : String) : List String :=
  (splitPred Char.isWhitespace s.data).map (fun cs => String.mk cs)

/-- JS array.join(sep). -/
def strJoin (sep : String) : List String → String
  | [] => ""
  | [x] => x
  | x :: y :: rest => x ++ sep ++ strJoin sep (y :: rest)

/-! ## External collaborators -/

/-- One fs.stat/readFile result for a path: a regular file with its content
(bytes modelled as a string; `size` is its length), a directory, or a missing
path (stat throws). -/
inductive FsEntry where
  | file (content : String)
  | dir
  | missing
deriving DecidableEq, Repr

/-- One fs.readdir Dirent. -/
structure DirEntry where
  name : String
  isDir : Bool
deriving DecidableEq, Repr

/-- A fetch() response: ok/status/statusText, the parsed content-length and
content-type headers, and the body. -/
structure FetchResponse where
  ok : Bool
  status : Nat
  statusText : String
  contentLength : Option Nat
  contentType : Option String
  body : String
deriving DecidableEq, Repr

/-- sharp(buffer).metadata(). -/
structure ImageMeta where
  width : Nat
  height : Nat
  format : Option String
deriving DecidableEq, Repr

/-- The ffprobe stream/format information used by the video extractor (none
models a probe failure or a file without a video stream; the float duration is
modelled in whole seconds, which no claim depends on). -/
structure VideoInfo where
  duration : Nat
  width : Nat
  height : Nat
deriving DecidableEq, Repr

/-- A raw feature record as returned by an external capability provider
(embedding extractor or MCP extractor tool): key, pre-serialized value, value
kind and optional per-feature ttl. -/
structure RawFeature where
  key : String
  value : String
  type : FeatureType
  ttl : Option Nat
deriving DecidableEq, Repr

/-- The external collaborators of the core: filesystem, network, hashing, the
mime-types lookup table, sharp, ffmpeg/ffprobe, the OpenAI embedding extractor
and the registered MCP extractor tools.  All are opaque total functions; the
spec treats them as out-of-scope capability providers. -/
structure Env where
  fs : String → FsEntry
  readdir : String → Option (List DirEntry)
  statSize : String → Option Nat
  sha256Hex : String → String
  mimeLookup : String → Option String
  fetch : String → FetchResponse
  maxFileSize : Nat
  serverUrl : String
  encodeURIComponent : String → String
  base64 : String → String
  imageMeta : String → ImageMeta
  resizeSmall : String → String
  resizeMedium : String → String
  resizeLarge : String → String
  imageStatsJson : String → String
  ffmpegAvailable : Bool
  ffprobe : String → Option VideoInfo
  ffmpegSnapshot : String → Nat → String
  embeddingAvailable : Bool
  embeddingFeatures : String → Option (List RawFeature)
  callTool : String → String → Option (List RawFeature)

/-! ## ResourceLoader (src/core/resource-loader.ts) -/

/-- A loaded Resource together with its content bytes. -/
structure LoadedResource where
  url : String
  type : ResourceType
  lastProcessed : Nat
  checksum : String
  size : Nat
  mimeType : String
  content : String
deriving DecidableEq, Repr

/-- ResourceLoader.isUrl: `new URL(resource)` succeeds with an http/https
protocol. -/
def isUrl (resource : String) : Bool :=
  strStartsWith resource "http://" || strStartsWith resource "https://"

/-- The mime type detected for a file path: mime-types lookup (falling back to
application/octet-stream) with the explicit .ts/.tsx and .js/.jsx
overrides. -/
def fileMimeType (env : Env) (path : String) : String :=
  let base := jsOrString (env.mimeLookup path) "application/octet-stream"
  if strEndsWith path ".ts" || strEndsWith path ".tsx" then "text/typescript"
  else if strEndsWith path ".js" || strEndsWith path ".jsx" then "application/javascript"
  else base

/-- ResourceLoader.loadFile.  Paths are taken to be already absolute (the
source resolves relative paths against process.cwd() first).  A missing path
makes stat throw, which the catch block wraps as RESOURCE_NOT_FOUND; a
directory fails the isFile() check with INVALID_URL; an oversized file is
rejected with RESOURCE_NOT_FOUND before reading. -/
def loadFile (env : Env) (filePath : String) (now : Nat) :
    Except FeatureStoreError LoadedResource :=
  match env.fs filePath with
  | FsEntry.missing =>
      Except.error { code := ErrorCode.resourceNotFound,
                     message := "Failed to load file " ++ filePath ++ ": ENOENT" }
  | FsEntry.dir =>
      Except.error { code := ErrorCode.invalidUrl,
                     message := "Path is not a file: " ++ filePath }
  | FsEntry.file content =>
      if content.length > env.maxFileSize then
        Except.error { code := ErrorCode.resourceNotFound,
                       message := "File exceeds maximum size limit: " ++
                         toString content.length ++ " bytes" }
      else
        Except.ok { url := "file://" ++ filePath, type := ResourceType.file,
                    lastProcessed := now, checksum := env.sha256Hex content,
                    size := content.length, mimeType := fileMimeType env filePath,
                    content := content }

/-- ResourceLoader.loadUrl: non-ok responses and both size-cap checks (the
content-length header and the read body) are wrapped as RESOURCE_NOT_FOUND;
the response's content-type is stripped of its parameters. -/
def loadUrl (env : Env) (url : String) (now : Nat) :
    Except FeatureStoreError LoadedResource :=
  let response := env.fetch url
  if !response.ok then
    Except.error { code := ErrorCode.resourceNotFound,
                   message := "HTTP " ++ toString response.status ++ ": " ++
                     response.statusText }
  else if (match response.contentLength with
           | some n => decide (n > env.maxFileSize)
           | none => false) then
    Except.error { code := ErrorCode.resourceNotFound,
                   message := "Content exceeds maximum size limit: " ++
                     toString (response.contentLength.getD 0) ++ " bytes" }
  else if response.body.length > env.maxFileSize then
    Except.error { code := ErrorCode.resourceNotFound,
                   message := "Content exceeds maximum size limit: " ++
                     toString response.body.length ++ " bytes" }
  else
    Except.ok { url := url, type := ResourceType.url, lastProcessed := now,
                checksum := env.sha256Hex response.body,
                size := response.body.length,
                mimeType := (strSplitOn (jsOrString response.contentType
                  "application/octet-stream") ";").headD "",
                content := response.body }

/-- ResourceLoader.load: dispatch on isUrl. -/
def load (env : Env) (resourceUrl : String) (now : Nat) :
    Except FeatureStoreError LoadedResource :=
  if isUrl resourceUrl then loadUrl env resourceUrl now
  else loadFile env resourceUrl now

/-! ## DirectFeatureOrchestrator (src/core/direct-orchestrator.ts) -/

/-- The ExtractOptions record of the direct orchestrator.  `mode` and
`updateMissing` are optional in the source: a missing mode defaults to
'standard'; a missing updateMissing is falsy in the cache check but is passed
to the extractors as `options.updateMissing !== false`, i.e. true. -/
structure ExtractOptions where
  ttl : Option Nat
  force : Bool
  includeEmbeddings : Bool
  skipDirectoryIndexing : Bool
  mode : Option Mode
  updateMissing : Option Bool
deriving DecidableEq, Repr

/-- An extractFeatures call with no options. -/
def defaultOptions : ExtractOptions :=
  { ttl := none, force := false, includeEmbeddings := false,
    skipDirectoryIndexing := false, mode := none, updateMissing := none }

/-- An observable record of which built-in extraction routine (capability
provider) an extractFeatures call actually invoked. -/
inductive ExtractEvent where
  | imageExtraction
  | videoExtraction
  | textExtraction
  | directoryExtraction
  | embeddingExtraction
deriving DecidableEq, Repr

/-- Result of one DirectFeatureOrchestrator.extractFeatures call: the database
after the call, the returned features or the raised FeatureStoreError, and the
provider invocations the call performed. -/
structure ExtractResult where
  db : DB
  result : Except FeatureStoreError (List Feature)
  events : List ExtractEvent
deriving Repr

/-- The minimal-mode feature key set of shouldExtractFeature. -/
def minimalFeatures : List String :=
  ["text.content", "text.word_count", "text.line_count", "text.char_count",
   "directory.metadata", "directory.file_count", "directory.total_size",
   "directory.subdirectory_count"]

/-- The standard-mode feature key set of shouldExtractFeature (the source
repeats directory.subdirectory_count; the duplicate is kept). -/
def standardFeatures : List String :=
  minimalFeatures ++
  ["image.thumbnail.small", "image.thumbnail.medium", "image.dimensions",
   "image.format", "video.dimensions", "video.duration", "video.snapshot_50",
   "directory.subdirectory_count"]

/-- DirectFeatureOrchestrator.shouldExtractFeature: skip a key that already
exists when updateMissing is true; otherwise maximal allows everything and
minimal/standard consult their key sets. -/
def shouldExtractFeature (featureKey : String) (mode : Mode)
    (existingKeys : List String) (updateMissing : Bool) : Bool :=
  if updateMissing && existingKeys.contains featureKey then false
  else
    match mode with
    | Mode.maximal => true
    | Mode.minimal => minimalFeatures.contains featureKey
    | Mode.standard => standardFeatures.contains featureKey

/-- JS String.replace('_', '.'): replace only the first underscore (turns
image.thumbnail_small into image.thumbnail.small). -/
def dotFirstUnderscore (s : String) : String :=
  match strSplitOn s "_" with
  | [] => s
  | [x] => x
  | x :: y :: rest =>
      x ++ "." ++ y ++ (rest.foldl (fun acc z => acc ++ "_" ++ z) "")

/-- JS url.replace('file://', ''): remove the first occurrence of the
file:// scheme prefix (anywhere in the string). -/
def stripFileScheme (s : String) : String :=
  match strSplitOn s "file://" with
  | [] => s
  | [x] => x
  | x :: y :: rest =>
      x ++ y ++ (rest.foldl (fun acc z => acc ++ "file://" ++ z) "")

/-- Build a Feature produced by a built-in extractor at time `now`. -/
def mkFeature (resourceUrl featureKey value : String) (valueType : FeatureType)
    (now ttl : Nat) (extractorTool : String) : Feature :=
  { resourceUrl := resourceUrl, featureKey := featureKey, value := value,
    valueType := valueType, generatedAt := now, ttl := ttl,
    expiresAt := now + ttl, extractorTool := extractorTool }

/-- The store-shape of a produced Feature (the map in extractFeatures before
this.db.storeFeatures). -/
def inputOfFeature (f : Feature) : FeatureInput :=
  { key := f.featureKey, value := f.value, type := f.valueType,
    ttl := some f.ttl, extractorTool := f.extractorTool }

/-- DirectFeatureOrchestrator.extractTextFeatures. -/
def extractTextFeatures (r : LoadedResource) (ttl : Nat) (mode : Mode)
    (existingKeys : List String) (updateMissing : Bool) (now : Nat) : List Feature :=
  let text := r.content
  let lines := strSplitOn text "\n"
  let words := (strSplitWhitespace text).filter (fun w => w.length > 0)
  (if shouldExtractFeature "text.content" mode existingKeys updateMissing then
    [mkFeature r.url "text.content" (strTake text 10000) FeatureType.text now ttl "built-in"]
   else []) ++
  (if shouldExtractFeature "text.word_count" mode existingKeys updateMissing then
    [mkFeature r.url "text.word_count" (toString words.length) FeatureType.number now ttl "built-in"]
   else []) ++
  (if shouldExtractFeature "text.line_count" mode existingKeys updateMissing then
    [mkFeature r.url "text.line_count" (toString lines.length) FeatureType.number now ttl "built-in"]
   else []) ++
  (if shouldExtractFeature "text.char_count" mode existingKeys updateMissing then
    [mkFeature r.url "text.char_count" (toString text.length) FeatureType.number now ttl "built-in"]
   else [])

/-- One generated thumbnail: stored key, resized buffer, dimensions tag and
the URL under which the binary is served. -/
structure ThumbSpec where
  key : String
  buffer : String
  dims : String
  url : String
deriving DecidableEq, Repr

/-- The thumbnail URL built by extractImageFeatures. -/
def imageThumbUrl (env : Env) (resourceUrl key : String) : String :=
  env.serverUrl ++ "/api/features/" ++ env.encodeURIComponent resourceUrl ++
    "/" ++ key ++ "?format=raw"

/-- DirectFeatureOrchestrator.extractImageFeatures: the gated thumbnails are
stored directly (binary, underscore keys) and returned as URL features under
the dot-separated keys; dimensions/format/dominant_colors are gated plain
features.  sharp metadata, resizing and stats come from the environment. -/
def extractImageFeatures (env : Env) (db : DB) (r : LoadedResource) (ttl : Nat)
    (mode : Mode) (existingKeys : List String) (updateMissing : Bool)
    (now : Nat) : DB × List Feature :=
  let meta := env.imageMeta r.content
  let thumbs : List ThumbSpec :=
    (if shouldExtractFeature "image.thumbnail.small" mode existingKeys updateMissing then
      [{ key := "image.thumbnail_small", buffer := env.resizeSmall r.content,
         dims := "150x150", url := imageThumbUrl env r.url "image.thumbnail_small" }]
     else []) ++
    (if shouldExtractFeature "image.thumbnail.medium" mode existingKeys updateMissing then
      [{ key := "image.thumbnail_medium", buffer := env.resizeMedium r.content,
         dims := "400x400", url := imageThumbUrl env r.url "image.thumbnail_medium" }]
     else []) ++
    (if shouldExtractFeature "image.thumbnail.large" mode existingKeys updateMissing
        && mode == Mode.maximal then
      [{ key := "image.thumbnail_large", buffer := env.resizeLarge r.content,
         dims := "1920x1080", url := imageThumbUrl env r.url "image.thumbnail_large" }]
     else [])
  let db1 := thumbs.foldl (fun d t =>
      storeFeatures d r.url
        [{ key := t.key, value := env.base64 t.buffer, type := FeatureType.binary,
           ttl := some ttl, extractorTool := "built-in" }] now) db
  let fs :=
    thumbs.map (fun t =>
      mkFeature r.url (dotFirstUnderscore t.key) t.url FeatureType.text now ttl "built-in") ++
    (if shouldExtractFeature "image.dimensions" mode existingKeys updateMissing then
      [mkFeature r.url "image.dimensions"
        ("width=" ++ toString meta.width ++ ";height=" ++ toString meta.height)
        FeatureType.json now ttl "built-in"]
     else []) ++
    (if shouldExtractFeature "image.format" mode existingKeys updateMissing then
      [mkFeature r.url "image.format" (jsOrString meta.format "unknown")
        FeatureType.text now ttl "built-in"]
     else []) ++
    (if shouldExtractFeature "image.dominant_colors" mode existingKeys updateMissing
        && mode == Mode.maximal then
      [mkFeature r.url "image.dominant_colors" (env.imageStatsJson r.content)
        FeatureType.json now ttl "built-in"]
     else [])
  (db1, fs)

/-- The stored/returned key of a video snapshot at a percentage. -/
def videoSnapshotKey (percentage : Nat) : String :=
  "video.snapshot_" ++ toString percentage

/-- DirectFeatureOrchestrator.extractVideoFeatures: returns no features when
ffmpeg is unavailable or ffprobe finds no video stream (the source swallows
video-extraction errors); otherwise the mode-dependent snapshot percentages
are stored as binary rows and returned as URL features, plus the gated
dimensions/duration features. -/
def extractVideoFeatures (env : Env) (db : DB) (r : LoadedResource) (ttl : Nat)
    (mode : Mode) (existingKeys : List String) (updateMissing : Bool)
    (now : Nat) : DB × List Feature :=
  if !env.ffmpegAvailable then (db, [])
  else
    let resourceId := strTake r.checksum 16
    match env.ffprobe r.content with
    | none => (db, [])
    | some info =>
      let percentages : List Nat :=
        match mode with
        | Mode.minimal => []
        | Mode.standard =>
            if shouldExtractFeature "video.snapshot_50" mode existingKeys updateMissing
            then [50] else []
        | Mode.maximal =>
            ((List.range 10).map (fun i => i * 10)).filter
              (fun p => shouldExtractFeature (videoSnapshotKey p) mode existingKeys updateMissing)
      let snapshots := percentages.map (fun p =>
        (p, env.ffmpegSnapshot r.content p,
         env.serverUrl ++ "/media/" ++ resourceId ++ "/" ++ videoSnapshotKey p))
      let db1 := snapshots.foldl (fun d s =>
        storeFeatures d r.url
          [{ key := videoSnapshotKey s.1, value := env.base64 s.2.1,
             type := FeatureType.binary, ttl := some ttl, extractorTool := "built-in" }]
          now) db
      let fs :=
        snapshots.map (fun s =>
          mkFeature r.url (videoSnapshotKey s.1) s.2.2 FeatureType.text now ttl "built-in") ++
        (if shouldExtractFeature "video.dimensions" mode existingKeys updateMissing then
          [mkFeature r.url "video.dimensions"
            ("width=" ++ toString info.width ++ ";height=" ++ toString info.height)
            FeatureType.json now ttl "built-in"]
         else []) ++
        (if shouldExtractFeature "video.duration" mode existingKeys updateMissing then
          [mkFeature r.url "video.duration" (toString info.duration)
            FeatureType.number now ttl "built-in"]
         else [])
      (db1, fs)

/-- path.basename. -/
def basename (p : String) : String :=
  (strSplitOn p "/").getLastD p

/-- The JSON.stringify(dirMetadata) payload of directory.metadata, modelled as
a deterministic rendering of the same fields. -/
def dirMetadataValue (dirPath : String) (files subdirs : List DirEntry)
    (totalSize : Nat) : String :=
  "name=" ++ basename dirPath ++ ";path=" ++ dirPath ++
  ";fileCount=" ++ toString files.length ++
  ";subdirectoryCount=" ++ toString subdirs.length ++
  ";totalSize=" ++ toString totalSize ++
  ";files=" ++ strJoin "," (files.map (fun f => f.name)) ++
  ";subdirectories=" ++ strJoin "," (subdirs.map (fun d => d.name))

/-- DirectFeatureOrchestrator.extractDirectoryFeatures: list the directory
(readdir failure is caught and yields no features), sum the statable file
sizes, and emit the four gated directory features. -/
def extractDirectoryFeatures (env : Env) (r : LoadedResource) (ttl : Nat)
    (mode : Mode) (existingKeys : List String) (updateMissing : Bool)
    (now : Nat) : List Feature :=
  let dirPath := stripFileScheme r.url
  match env.readdir dirPath with
  | none => []
  | some entries =>
    let files := entries.filter (fun e => !e.isDir)
    let subdirs := entries.filter (fun e => e.isDir)
    let fileSizes := files.filterMap (fun f =>
      match env.statSize (dirPath ++ "/" ++ f.name) with
      | some sz => some (f.name, sz)
      | none => none)
    let totalSize := fileSizes.foldl (fun acc p => acc + p.2) 0
    (if shouldExtractFeature "directory.metadata" mode existingKeys updateMissing then
      [mkFeature r.url "directory.metadata"
        (dirMetadataValue dirPath files subdirs totalSize)
        FeatureType.json now ttl "directory-extractor"]
     else []) ++
    (if shouldExtractFeature "directory.file_count" mode existingKeys updateMissing then
      [mkFeature r.url "directory.file_count" (toString files.length)
        FeatureType.number now ttl "directory-extractor"]
     else []) ++
    (if shouldExtractFeature "directory.total_size" mode existingKeys updateMissing then
      [mkFeature r.url "directory.total_size" (toString totalSize)
        FeatureType.number now ttl "directory-extractor"]
     else []) ++
    (if shouldExtractFeature "directory.subdirectory_count" mode existingKeys updateMissing then
      [mkFeature r.url "directory.subdirectory_count" (toString subdirs.length)
        FeatureType.number now ttl "directory-extractor"]
     else [])

/-- The JSON.stringify payload of the unconditional extraction.summary feature
the directory branch appends after recursing. -/
def extractionSummaryValue (dirPath : String) (filesProcessed directoryFeatures : Nat) :
    String :=
  "type=directory;path=" ++ dirPath ++
  ";filesProcessed=" ++ toString filesProcessed ++
  ";directoryFeatures=" ++ toString directoryFeatures ++
  ";message=Successfully extracted features from " ++ toString filesProcessed ++
  " files in directory"

/-- The hidden-file / ignore-pattern filter of recursivelyExtractFromDirectory. -/
def ignoredEntryName (name : String) : Bool :=
  strStartsWith name "." || name == "node_modules" || name == "__pycache__" ||
  name == "dist" || name == "build"

/-- Accumulated state of the recursive directory walk. -/
structure DirWalkResult where
  db : DB
  processed : List String
  events : List ExtractEvent
deriving Repr

/-- The entry loop of the walkDirectory closure of
recursivelyExtractFromDirectory.  `recur` is the orchestrator's
extractFeatures and `walkSub` the walk of one subdirectory (both already bound
to their fuel by walkDir below); per-file and per-subdirectory errors are
caught and skipped; files over the hard-coded 100 MiB cap are skipped before
extraction. -/
def walkEntriesAux (recur : DB → String → ExtractOptions → Nat → ExtractResult)
    (env : Env) (walkSub : DB → String → ExtractOptions → Nat → DirWalkResult) :
    DB → String → List DirEntry → ExtractOptions → Nat → DirWalkResult
  | db, _, [], _, _ => { db := db, processed := [], events := [] }
  | db, currentPath, e :: rest, o, now =>
    if ignoredEntryName e.name then
      walkEntriesAux recur env walkSub db currentPath rest o now
    else
      let fullPath := currentPath ++ "/" ++ e.name
      if e.isDir then
        let r1 := recur db ("file://" ++ fullPath)
          { o with skipDirectoryIndexing := true } now
        let sub := walkSub r1.db fullPath o now
        let tail := walkEntriesAux recur env walkSub sub.db currentPath rest o now
        { db := tail.db,
          processed :=
            (match r1.result with
             | Except.ok _ => [fullPath]
             | Except.error _ => []) ++ sub.processed ++ tail.processed,
          events := r1.events ++ sub.events ++ tail.events }
      else
        match env.fs fullPath with
        | FsEntry.file content =>
          if content.length > 100 * 1024 * 1024 then
            walkEntriesAux recur env walkSub db currentPath rest o now
          else
            let r1 := recur db ("file://" ++ fullPath) o now
            let tail := walkEntriesAux recur env walkSub r1.db currentPath rest o now
            { db := tail.db,
              processed :=
                (match r1.result with
                 | Except.ok _ => [fullPath]
                 | Except.error _ => []) ++ tail.processed,
              events := r1.events ++ tail.events }
        | _ =>
          walkEntriesAux recur env walkSub db currentPath rest o now

/-- The walkDirectory closure of recursivelyExtractFromDirectory: list the
directory (a listing failure is caught and ends the walk of this directory)
and process its entries.  The recursion into subdirectories is bounded by the
fuel (in the source it is bounded only by the filesystem depth). -/
def walkDir (recur : DB → String → ExtractOptions → Nat → ExtractResult)
    (env : Env) : Nat → DB → String → ExtractOptions → Nat → DirWalkResult
  | 0, db, _, _, _ => { db := db, processed := [], events := [] }
  | Nat.succ fuel, db, currentPath, o, now =>
    match env.readdir currentPath with
    | none => { db := db, processed := [], events := [] }
    | some entries =>
        walkEntriesAux recur env (walkDir recur env fuel) db currentPath entries o now

/-- The mime-type guard of the directory branch. -/
def directoryBranch (r : LoadedResource) : Bool :=
  r.mimeType == "inode/directory" || r.type == ResourceType.directory

/-- The mime-type guard of the text branch. -/
def textBranch (r : LoadedResource) : Bool :=
  strStartsWith r.mimeType "text/" || r.mimeType == "application/json" ||
  r.mimeType == "application/javascript" || r.mimeType == "text/typescript"

/-- The cached-features computation of extractFeatures: unless force, the
stored Resource for the normalized url whose checksum equals the fresh one
contributes its unexpired feature rows; a checksum mismatch or a missing
Resource yields none. -/
def cachedFeatures (db : DB) (r : LoadedResource) (o : ExtractOptions)
    (now : Nat) : List Feature :=
  if o.force then []
  else
    match getResource db r.url with
    | some er =>
        if er.checksum == r.checksum then
          queryFeatures db
            { url := some r.url, featureKeys := [], extractors := [],
              includeExpired := false } now
        else []
    | none => []

/-- The mime-dispatch, store and return phase of extractFeatures (everything
after the cache-hit early return).  `recur` is extractFeatures at one less
unit of fuel, used only by the directory branch's recursive walk (with the
walk depth bounded by `fuel`). -/
def extractDispatch (recur : DB → String → ExtractOptions → Nat → ExtractResult)
    (fuel : Nat) (env : Env) (db : DB) (r : LoadedResource) (o : ExtractOptions)
    (now : Nat) (existing : List Feature) : ExtractResult :=
  let db1 := upsertResource db
    { url := r.url, type := r.type, lastProcessed := now,
      checksum := r.checksum, size := r.size, mimeType := r.mimeType }
  let existingKeys := existing.map (fun f => f.featureKey)
  let ttl := jsOrNat o.ttl 86400
  let mode := o.mode.getD Mode.standard
  let updateMissing := o.updateMissing != some false
  let step : DB × List Feature × List ExtractEvent :=
    if directoryBranch r then
      let dirFeats := extractDirectoryFeatures env r ttl mode existingKeys updateMissing now
      let dirPath := stripFileScheme r.url
      let walked := walkDir recur env fuel db1 dirPath
        { o with skipDirectoryIndexing := true } now
      let feats := dirFeats ++
        [mkFeature r.url "extraction.summary"
          (extractionSummaryValue dirPath walked.processed.length dirFeats.length)
          FeatureType.json now ttl "directory-extractor"]
      (walked.db, feats, ExtractEvent.directoryExtraction :: walked.events)
    else if strStartsWith r.mimeType "image/" then
      let res := extractImageFeatures env db1 r ttl mode existingKeys updateMissing now
      (res.1, res.2, [ExtractEvent.imageExtraction])
    else if strStartsWith r.mimeType "video/" then
      let res := extractVideoFeatures env db1 r ttl mode existingKeys updateMissing now
      (res.1, res.2, [ExtractEvent.videoExtraction])
    else if textBranch r then
      let feats := extractTextFeatures r ttl mode existingKeys updateMissing now
      if o.includeEmbeddings && env.embeddingAvailable then
        match env.embeddingFeatures r.content with
        | some raws =>
            (db1, feats ++ raws.map (fun f =>
               mkFeature r.url f.key f.value f.type now (jsOrNat f.ttl ttl) "embedding-extractor"),
             [ExtractEvent.textExtraction, ExtractEvent.embeddingExtraction])
        | none => (db1, feats, [ExtractEvent.textExtraction])
      else (db1, feats, [ExtractEvent.textExtraction])
    else
      (db1, [], [])
  let db3 :=
    if step.2.1.isEmpty then step.1
    else storeFeatures step.1 r.url (step.2.1.map inputOfFeature) now
  { db := db3, result := Except.ok step.2.1, events := step.2.2 }

/-- DirectFeatureOrchestrator.extractFeatures.  The background directory
indexing of the containing directory is an unawaited fire-and-forget task
whose effects are concurrent with (and not part of) the call itself, so it is
not modelled.  `fuel` bounds the directory-walk recursion depth of the source
(which is bounded only by the filesystem); every claim below is settled with
enough fuel that the bound is never hit. -/
def extractFeatures : Nat → Env → DB → String → ExtractOptions → Nat → ExtractResult
  | 0, _, db, _, _, _ =>
      { db := db,
        result := Except.error
          { code := ErrorCode.extractionFailed, message := "recursion fuel exhausted" },
        events := [] }
  | Nat.succ fuel, env, db, resourceUrl, o, now =>
    match load env resourceUrl now with
    | Except.error e =>
        { db := db,
          result := Except.error
            { code := ErrorCode.extractionFailed,
              message := "Failed to extract features from " ++ resourceUrl ++
                ": " ++ e.message },
          events := [] }
    | Except.ok r =>
        let existing := cachedFeatures db r o now
        if !(o.updateMissing.getD false) && !existing.isEmpty then
          { db := db, result := Except.ok existing, events := [] }
        else
          extractDispatch (fun d u oo n => extractFeatures fuel env d u oo n)
            fuel env db r o now existing

/-! ## FeatureOrchestrator (src/core/orchestrator.ts): MCP extractor tools -/

/-- FeatureOrchestrator.findExtractors: the enabled registrations whose
capabilities include the mime type, optionally narrowed to the requested tool
names. -/
def findExtractors (db : DB) (mimeType : String) (requested : List String) :
    List ExtractorRegistration :=
  let es := getEnabledExtractors db mimeType
  if requested.isEmpty then es
  else es.filter (fun e => requested.contains e.toolName)

/-- FeatureOrchestrator.callExtractor: one MCP tools/call; a tool failure is a
FeatureStoreError(EXTRACTION_FAILED); a success converts the raw records with
ttl = f.ttl || options.ttl || 3600 (values arrive pre-serialized from
encodeValue). -/
def callExtractor (env : Env) (e : ExtractorRegistration) (r : LoadedResource)
    (ttl : Option Nat) (now : Nat) : Except FeatureStoreError (List Feature) :=
  match env.callTool e.toolName r.content with
  | none =>
      Except.error { code := ErrorCode.extractionFailed,
                     message := "Extractor " ++ e.toolName ++ " failed" }
  | some raws =>
      Except.ok (raws.map (fun f =>
        mkFeature r.url f.key f.value f.type now (jsOrNat f.ttl (jsOrNat ttl 3600))
          e.toolName))

/-- The Promise.allSettled outcomes of the applicable extractors. -/
def settledResults (env : Env) (es : List ExtractorRegistration)
    (r : LoadedResource) (ttl : Option Nat) (now : Nat) :
    List (Except FeatureStoreError (List Feature)) :=
  es.map (fun e => callExtractor env e r ttl now)

/-- The features of the fulfilled extractors, in order. -/
def fulfilledFeatures (rs : List (Except FeatureStoreError (List Feature))) :
    List Feature :=
  rs.foldl (fun acc res =>
    match res with
    | Except.ok fs => acc ++ fs
    | Except.error _ => acc) []

/-- The errors of the rejected extractors, in order. -/
def rejectedErrors (rs : List (Except FeatureStoreError (List Feature))) :
    List FeatureStoreError :=
  rs.foldl (fun acc res =>
    match res with
    | Except.ok _ => acc
    | Except.error e => acc ++ [e]) []

/-- Result of one FeatureOrchestrator.extractFeatures call. -/
structure McpExtractResult where
  db : DB
  result : Except FeatureStoreError (List Feature)
deriving Repr

/-- FeatureOrchestrator.extractFeatures (src/core/orchestrator.ts): load,
cache check (this variant keys the database rows by the caller's resourceUrl),
resource upsert, parallel extractor dispatch via Promise.allSettled, store of
the fulfilled features, and the all-extractors-failed AggregateError (wrapped
by the outer catch into EXTRACTION_FAILED). -/
def mcpExtractFeatures (env : Env) (db : DB) (resourceUrl : String)
    (requested : List String) (ttl : Option Nat) (force : Bool) (now : Nat) :
    McpExtractResult :=
  match load env resourceUrl now with
  | Except.error e =>
      { db := db,
        result := Except.error
          { code := ErrorCode.extractionFailed,
            message := "Failed to extract features from " ++ resourceUrl ++
              ": " ++ e.message } }
  | Except.ok r =>
    let cached : List Feature :=
      if force then []
      else
        match getResource db resourceUrl with
        | some er =>
            if er.checksum == r.checksum then
              queryFeatures db
                { url := some resourceUrl, featureKeys := [], extractors := [],
                  includeExpired := false } now
            else []
        | none => []
    if !cached.isEmpty then
      { db := db, result := Except.ok cached }
    else
      let db1 := upsertResource db
        { url := resourceUrl, type := r.type, lastProcessed := now,
          checksum := r.checksum, size := r.size, mimeType := r.mimeType }
      let es := findExtractors db1 r.mimeType requested
      if es.isEmpty then
        { db := db1, result := Except.ok [] }
      else
        let rs := settledResults env es r ttl now
        let allFeatures := fulfilledFeatures rs
        let errors := rejectedErrors rs
        let db2 :=
          if allFeatures.isEmpty then db1
          else storeFeatures db1 resourceUrl (allFeatures.map inputOfFeature) now
        if allFeatures.isEmpty && !errors.isEmpty then
          { db := db2,
            result := Except.error
              { code := ErrorCode.extractionFailed,
                message := "Failed to extract features from " ++ resourceUrl ++
                  ": All extractors failed" } }
        else
          { db := db2, result := Except.ok allFeatures }

/-! ## Concrete fixtures for witnesses and counterexamples -/

instance {ε α : Type} [DecidableEq ε] [DecidableEq α] : DecidableEq (Except ε α) := fun a b =>
  match a, b with
  | Except.ok x, Except.ok y => decidable_of_iff (x = y) (by simp)
  | Except.error x, Except.error y => decidable_of_iff (x = y) (by simp)
  | Except.ok _, Except.error _ => isFalse (by simp)
  | Except.error _, Except.ok _ => isFalse (by simp)

/-- A small concrete environment: a text file /a.txt ("hi"), an image file
/img.png, a directory /dir, a URL http://d/ whose response declares
content-type inode/directory, everything else missing; hashing, resizing and
encoding are injective string taggers. -/
def testEnv : Env :=
  { fs := fun p =>
      if p = "/a.txt" then FsEntry.file "hi"
      else if p = "/img.png" then FsEntry.file "IMG"
      else if p = "/dir" then FsEntry.dir
      else FsEntry.missing,
    readdir := fun _ => none,
    statSize := fun _ => none,
    sha256Hex := fun s => "sha:" ++ s,
    mimeLookup := fun p =>
      if strEndsWith p ".txt" then some "text/plain"
      else if strEndsWith p ".png" then some "image/png"
      else none,
    fetch := fun u =>
      if u = "http://d/" then
        { ok := true, status := 200, statusText := "OK",
          contentLength := none, contentType := some "inode/directory", body := "B" }
      else
        { ok := false, status := 404, statusText := "Not Found",
          contentLength := none, contentType := none, body := "" },
    maxFileSize := 104857600,
    serverUrl := "http://x",
    encodeURIComponent := fun s => s,
    base64 := fun s => "b64:" ++ s,
    imageMeta := fun _ => { width := 10, height := 20, format := some "png" },
    resizeSmall := fun s => "S:" ++ s,
    resizeMedium := fun s => "M:" ++ s,
    resizeLarge := fun s => "L:" ++ s,
    imageStatsJson := fun _ => "stats",
    ffmpegAvailable := true,
    ffprobe := fun _ => some { duration := 60, width := 640, height := 480 },
    ffmpegSnapshot := fun _ p => "snap" ++ toString p,
    embeddingAvailable := false,
    embeddingFeatures := fun _ => none,
    callTool := fun _ _ => none }

/-- The empty database. -/
def emptyDB : DB := { resources := [], features := [], extractors := [] }

/-- The feature keys returned by an extraction call (empty on error). -/
def featureKeysOf (r : ExtractResult) : List String :=
  match r.result with
  | Except.ok l => l.map (fun f => f.featureKey)
  | Except.error _ => []

/-- The error code of a load result, if it failed. -/
def errCodeOf {α : Type} (x : Except FeatureStoreError α) : Option ErrorCode :=
  match x with
  | Except.ok _ => none
  | Except.error e => some e.code

/-- Whether a load result succeeded with a resource taking the orchestrator's
directory branch. -/
def loadedDirectoryBranch (x : Except FeatureStoreError LoadedResource) : Bool :=
  match x with
  | Except.ok r => directoryBranch r
  | Except.error _ => false

/-! ## Claim C6: TTL expiry in query and sweep -/

/-- The uniqueness predicate of the features table: no two rows share a
(resource_url, feature_key) pair. -/
def sameFeatureSlot (a b : Feature) : Prop :=
  a.resourceUrl = b.resourceUrl ∧ a.featureKey = b.featureKey

/-- At most one live row per (resource, key). -/
def uniqueFeatureRows (l : List Feature) : Prop :=
  l.Pairwise (fun a b => ¬ sameFeatureSlot a b)

/-- C6 (amended): a feature whose expiry has elapsed (expiresAt ≤ now) is
excluded from queryFeatures when includeExpired is false and included when
includeExpired is true, but cleanExpiredFeatures deletes only the rows with
expires_at strictly below now: a row whose expiry equals the current second
survives the sweep. -/
theorem c6_ttl_expiry_amended :
    (∀ (db : DB) (p : QueryParams) (now : Nat) (f : Feature),
       p.includeExpired = false → f.expiresAt ≤ now →
       f ∉ queryFeatures db p now) ∧
    (∀ (db : DB) (u : String) (now : Nat) (f : Feature),
       f ∈ db.features → f.resourceUrl = u →
       f ∈ queryFeatures db
         { url := some u, featureKeys := [], extractors := [],
           includeExpired := true } now) ∧
    (∀ (db : DB) (now : Nat),
       ((cleanExpiredFeatures db now).1).features =
         db.features.filter (fun f => !(decide (f.expiresAt < now)))) := by
  refine ⟨?_, ?_, ?_⟩
  · intro db p now f hinc hexp hmem
    have hq := (List.mem_filter.mp hmem).2
    simp only [matchesQuery, hinc, Bool.false_or, Bool.and_eq_true,
      decide_eq_true_eq] at hq
    omega
  · intro db u now f hmem hurl
    refine List.mem_filter.mpr ⟨hmem, ?_⟩
    simp [matchesQuery, hurl]
  · intro db now
    rfl

/-- Witness for C6 at a concrete database. -/
theorem c6_ttl_expiry_amended_witness :
    (mkFeature "u" "k" "v" FeatureType.text 0 100 "t" ∉
      queryFeatures
        { resources := [], features := [mkFeature "u" "k" "v" FeatureType.text 0 100 "t"],
          extractors := [] }
        { url := some "u", featureKeys := [], extractors := [], includeExpired := false }
        100) ∧
    (mkFeature "u" "k" "v" FeatureType.text 0 100 "t" ∈
      queryFeatures
        { resources := [], features := [mkFeature "u" "k" "v" FeatureType.text 0 100 "t"],
          extractors := [] }
        { url := some "u", featureKeys := [], extractors := [], includeExpired := true }
        100) :=
  ⟨c6_ttl_expiry_amended.1 _ _ 100 _ rfl (by decide),
   c6_ttl_expiry_amended.2.1 _ "u" 100 _ (by decide) rfl⟩

/-- C6 counterexample: the claim says the sweep deletes rows with expiry ≤
now; a row with expiresAt = now = 100 has elapsed (it is excluded from default
queries) yet the sweep deletes nothing. -/
theorem c6_sweep_boundary_counterexample :
    (cleanExpiredFeatures
      { resources := [], features := [mkFeature "u" "k" "v" FeatureType.text 0 100 "t"],
        extractors := [] } 100).2 = 0 ∧
    (cleanExpiredFeatures
      { resources := [], features := [mkFeature "u" "k" "v" FeatureType.text 0 100 "t"],
        extractors := [] } 100).1.features.length = 1 ∧
    (queryFeatures
      { resources := [], features := [mkFeature "u" "k" "v" FeatureType.text 0 100 "t"],
        extractors := [] }
      { url := some "u", featureKeys := [], extractors := [], includeExpired := false }
      100).length = 0 := by
  decide

/-! ## Claim C8: storeFeatures upsert semantics -/

theorem upsertFeatureRow_slots (l : List Feature) (row f : Feature) :
    f ∈ upsertFeatureRow l row → f ∈ l ∨ f = row := by
  unfold upsertFeatureRow
  by_cases hc : l.any (fun g => g.resourceUrl == row.resourceUrl && g.featureKey == row.featureKey)
  · rw [if_pos hc]
    intro h
    rcases List.mem_map.mp h with ⟨g, hg, hgf⟩
    by_cases hm : (g.resourceUrl == row.resourceUrl && g.featureKey == row.featureKey)
    · right
      rw [if_pos hm] at hgf
      have hm1 := (Bool.and_eq_true _ _).mp hm
      have hu : g.resourceUrl = row.resourceUrl := by
        have := hm1.1; simpa using this
      have hk : g.featureKey = row.featureKey := by
        have := hm1.2; simpa using this
      cases g; cases row
      simp_all
    · left
      rw [if_neg hm] at hgf
      exact hgf ▸ hg
  · rw [if_neg hc]
    intro h
    rcases List.mem_append.mp h with h1 | h1
    · exact Or.inl h1
    · exact Or.inr (by simpa using h1)

theorem upsertFeatureRow_unique (l : List Feature) (row : Feature)
    (h : uniqueFeatureRows l) : uniqueFeatureRows (upsertFeatureRow l row) := by
  unfold upsertFeatureRow
  by_cases hc : l.any (fun g => g.resourceUrl == row.resourceUrl && g.featureKey == row.featureKey)
  · rw [if_pos hc]
    refine List.Pairwise.map _ ?_ h
    intro a b hab hslot
    apply hab
    rcases hslot with ⟨h1, h2⟩
    constructor
    · by_cases ha : (a.resourceUrl == row.resourceUrl && a.featureKey == row.featureKey) <;>
        by_cases hb : (b.resourceUrl == row.resourceUrl && b.featureKey == row.featureKey) <;>
        simp [ha, hb] at h1 <;> simp_all
    · by_cases ha : (a.resourceUrl == row.resourceUrl && a.featureKey == row.featureKey) <;>
        by_cases hb : (b.resourceUrl == row.resourceUrl && b.featureKey == row.featureKey) <;>
        simp [ha, hb] at h2 <;> simp_all
  · rw [if_neg hc]
    unfold uniqueFeatureRows
    rw [List.pairwise_append]
    refine ⟨h, List.pairwise_singleton _ _, ?_⟩
    intro a ha b hb hslot
    have hb' : b = row := by simpa using hb
    subst hb'
    have := List.any_eq_false.mp (Bool.of_not_eq_true hc) a ha
    rcases hslot with ⟨h1, h2⟩
    simp [h1, h2] at this

theorem storeFeatures_foldl_slots (u : String) (now : Nat) :
    ∀ (is : List FeatureInput) (acc : List Feature) (f : Feature),
      f ∈ is.foldl (fun l i => upsertFeatureRow l (featureRowOfInput u i now)) acc →
      f ∈ acc ∨ ∃ i ∈ is, f = featureRowOfInput u i now := by
  intro is
  induction is with
  | nil => intro acc f h; exact Or.inl h
  | cons i is ih =>
    intro acc f h
    rw [List.foldl_cons] at h
    rcases ih _ f h with h1 | ⟨j, hj, hfj⟩
    · rcases upsertFeatureRow_slots _ _ _ h1 with h2 | h2
      · exact Or.inl h2
      · exact Or.inr ⟨i, List.mem_cons_self i is, h2⟩
    · exact Or.inr ⟨j, List.mem_cons_of_mem i hj, hfj⟩

theorem storeFeatures_foldl_unique (u : String) (now : Nat) :
    ∀ (is : List FeatureInput) (acc : List Feature),
      uniqueFeatureRows acc →
      uniqueFeatureRows
        (is.foldl (fun l i => upsertFeatureRow l (featureRowOfInput u i now)) acc) := by
  intro is
  induction is with
  | nil => intro acc h; exact h
  | cons i is ih =>
    intro acc h
    rw [List.foldl_cons]
    exact ih _ (upsertFeatureRow_unique _ _ h)

/-- C8 (amended): storeFeatures is a batch upsert (modelled atomically, as the
better-sqlite3 transaction executes it); every row it leaves in the table is
either an untouched pre-existing row or the row built from one of the inputs,
whose persisted expiry is the write-time clock plus jsOrNat ttl 3600 — i.e.
the caller's TTL when it is present and non-zero, and the 3600-second default
when the caller omits the TTL or passes 0 (JS `feature.ttl || 3600`); and the
at-most-one-live-row-per-(resource, key) invariant is preserved, overwriting
in place. -/
theorem c8_store_upsert_invariant (db : DB) (u : String) (is : List FeatureInput)
    (now : Nat) (h : uniqueFeatureRows db.features) :
    uniqueFeatureRows (storeFeatures db u is now).features ∧
    (∀ f ∈ (storeFeatures db u is now).features,
       f ∈ db.features ∨ ∃ i ∈ is, f = featureRowOfInput u i now) ∧
    (∀ i : FeatureInput,
       (featureRowOfInput u i now).expiresAt = now + jsOrNat i.ttl 3600 ∧
       (featureRowOfInput u i now).featureKey = i.key ∧
       (featureRowOfInput u i now).value = i.value) := by
  refine ⟨storeFeatures_foldl_unique u now is db.features h, ?_, ?_⟩
  · intro f hf
    exact storeFeatures_foldl_slots u now is db.features f hf
  · intro i
    exact ⟨rfl, rfl, rfl⟩

/-- Witness for C8 at a concrete store. -/
theorem c8_store_upsert_invariant_witness :
    uniqueFeatureRows
      (storeFeatures emptyDB "u"
        [{ key := "k", value := "v", type := FeatureType.text, ttl := some 7,
           extractorTool := "t" }] 1000).features ∧
    (∀ f ∈ (storeFeatures emptyDB "u"
        [{ key := "k", value := "v", type := FeatureType.text, ttl := some 7,
           extractorTool := "t" }] 1000).features,
       f ∈ emptyDB.features ∨
       ∃ i ∈ [({ key := "k", value := "v", type := FeatureType.text, ttl := some 7,
                  extractorTool := "t" } : FeatureInput)],
         f = featureRowOfInput "u" i 1000) ∧
    (∀ i : FeatureInput,
       (featureRowOfInput "u" i 1000).expiresAt = 1000 + jsOrNat i.ttl 3600 ∧
       (featureRowOfInput "u" i 1000).featureKey = i.key ∧
       (featureRowOfInput "u" i 1000).value = i.value) :=
  c8_store_upsert_invariant emptyDB "u"
    [{ key := "k", value := "v", type := FeatureType.text, ttl := some 7,
       extractorTool := "t" }] 1000 (List.Pairwise.nil)

/-- C8 counterexample: the claim's TTL default applies only "when the caller
does not override it", but a caller overriding the TTL with 0 still gets the
3600-second default: the persisted expiry is 1000 + 3600, not 1000 + 0. -/
theorem c8_ttl_zero_counterexample :
    (storeFeatures emptyDB "u"
      [{ key := "k", value := "v", type := FeatureType.text, ttl := some 0,
         extractorTool := "t" }] 1000).features =
      [{ resourceUrl := "u", featureKey := "k", value := "v",
         valueType := FeatureType.text, generatedAt := 1000, ttl := 3600,
         expiresAt := 4600, extractorTool := "t" }] ∧
    (4600 : Nat) ≠ 1000 + 0 := by
  decide

/-! ## Claim C9: size cap and not-found error codes -/

/-- An environment whose only path is an oversized 10-byte file under a 5-byte
cap. -/
def bigEnv : Env :=
  { testEnv with fs := fun _ => FsEntry.file "0123456789", maxFileSize := 5 }

/-- C9 (amended): a locator whose byte length exceeds the configured cap
(default 100 MiB; known via the content-length header or after reading) fails,
but with a FeatureStoreError carrying code RESOURCE_NOT_FOUND — the same code
the not-found path raises; the ErrorCode taxonomy has no TooLarge member, so
the two failures are distinguishable only by their message text ("File/Content
exceeds maximum size limit" versus "Failed to load file"/"HTTP ..."). -/
theorem c9_size_cap_amended :
    (∀ (env : Env) (path content : String) (now : Nat),
       env.fs path = FsEntry.file content → content.length > env.maxFileSize →
       loadFile env path now = Except.error
         { code := ErrorCode.resourceNotFound,
           message := "File exceeds maximum size limit: " ++
             toString content.length ++ " bytes" }) ∧
    (∀ (env : Env) (path : String) (now : Nat),
       env.fs path = FsEntry.missing →
       loadFile env path now = Except.error
         { code := ErrorCode.resourceNotFound,
           message := "Failed to load file " ++ path ++ ": ENOENT" }) ∧
    (∀ (env : Env) (url : String) (now : Nat) (n : Nat),
       (env.fetch url).ok = true → (env.fetch url).contentLength = some n →
       n > env.maxFileSize →
       loadUrl env url now = Except.error
         { code := ErrorCode.resourceNotFound,
           message := "Content exceeds maximum size limit: " ++
             toString n ++ " bytes" }) := by
  refine ⟨?_, ?_, ?_⟩
  · intro env path content now hfs hbig
    simp [loadFile, hfs, if_pos hbig]
  · intro env path now hfs
    simp [loadFile, hfs]
  · intro env url now n hok hlen hbig
    simp [loadUrl, hok, hlen, if_pos hbig]

/-- Witness for C9 at the concrete environments. -/
theorem c9_size_cap_amended_witness :
    loadFile bigEnv "/big.bin" 0 = Except.error
      { code := ErrorCode.resourceNotFound,
        message := "File exceeds maximum size limit: 10 bytes" } ∧
    loadFile testEnv "/missing" 0 = Except.error
      { code := ErrorCode.resourceNotFound,
        message := "Failed to load file /missing: ENOENT" } :=
  ⟨by
    have h := c9_size_cap_amended.1 bigEnv "/big.bin" "0123456789" 0 (by decide) (by decide)
    simpa using h,
   by
    have h := c9_size_cap_amended.2.1 testEnv "/missing" 0 (by decide)
    simpa using h⟩

/-- C9 counterexample: the too-large failure and the not-found failure carry
the identical error code RESOURCE_NOT_FOUND, so they are not distinguishable
as the claim requires (no TooLarge code exists). -/
theorem c9_same_code_counterexample :
    errCodeOf (loadFile bigEnv "/big.bin" 0) = some ErrorCode.resourceNotFound ∧
    errCodeOf (loadFile testEnv "/missing" 0) = some ErrorCode.resourceNotFound ∧
    errCodeOf (loadFile bigEnv "/big.bin" 0) = errCodeOf (loadFile testEnv "/missing" 0) := by
  decide

/-! ## Claim C10: directory paths and the directory branch -/

/-- C10 (amended): a filesystem path that resolves to a directory fails
loadFile's isFile check with INVALID_URL, so a top-level extractFeatures call
on it raises EXTRACTION_FAILED, touches nothing and invokes no extractor; but
the directory branch is not unreachable via load in general: an http(s) URL
whose response declares content-type inode/directory loads successfully into a
resource that satisfies the branch guard. -/
theorem c10_directory_path_amended (env : Env) (path : String) (now fuel : Nat)
    (db : DB) (o : ExtractOptions)
    (hnu : isUrl path = false) (hdirfs : env.fs path = FsEntry.dir) :
    load env path now = Except.error
      { code := ErrorCode.invalidUrl, message := "Path is not a file: " ++ path } ∧
    extractFeatures (fuel + 1) env db path o now =
      { db := db,
        result := Except.error
          { code := ErrorCode.extractionFailed,
            message := "Failed to extract features from " ++ path ++ ": " ++
              ("Path is not a file: " ++ path) },
        events := [] } := by
  have hl : load env path now = Except.error
      { code := ErrorCode.invalidUrl, message := "Path is not a file: " ++ path } := by
    simp [load, hnu, loadFile, hdirfs]
  refine ⟨hl, ?_⟩
  simp [extractFeatures, hl]

/-- Witness for C10 at the concrete environment. -/
theorem c10_directory_path_amended_witness :
    load testEnv "/dir" 0 = Except.error
      { code := ErrorCode.invalidUrl, message := "Path is not a file: /dir" } ∧
    extractFeatures 1 testEnv emptyDB "/dir" defaultOptions 0 =
      { db := emptyDB,
        result := Except.error
          { code := ErrorCode.extractionFailed,
            message := "Failed to extract features from /dir: " ++
              ("Path is not a file: /dir") },
        events := [] } := by
  have h := c10_directory_path_amended testEnv "/dir" 0 0 emptyDB defaultOptions
    (by decide) (by decide)
  exact ⟨h.1, h.2⟩

/-- C10 counterexample: the directory-handling branch is reachable via load
after all — fetching http://d/ (whose response declares content-type
inode/directory) loads successfully into a resource satisfying the branch
guard, and the subsequent extractFeatures call runs the directory branch. -/
theorem c10_inode_directory_url_counterexample :
    loadedDirectoryBranch (load testEnv "http://d/" 0) = true ∧
    (extractFeatures 1 testEnv emptyDB "http://d/" defaultOptions 0).events =
      [ExtractEvent.directoryExtraction] ∧
    featureKeysOf (extractFeatures 1 testEnv emptyDB "http://d/" defaultOptions 0) =
      ["extraction.summary"] := by
  decide

/-! ## Claim C5: partial provider failure in FeatureOrchestrator -/

/-- Registry with two enabled text/plain extractors A and B. -/
def twoToolDB : DB :=
  { resources := [], features := [],
    extractors :=
      [{ toolName := "A", serverUrl := "s", capabilities := ["text/plain"],
         priority := 1, enabled := true },
       { toolName := "B", serverUrl := "s", capabilities := ["text/plain"],
         priority := 2, enabled := true }] }

/-- Environment where tool A succeeds with one feature and every other tool
fails. -/
def toolASucceedsEnv : Env :=
  { testEnv with
    callTool := fun tool _ =>
      if tool = "A" then
        some [{ key := "x.k", value := "xv", type := FeatureType.text, ttl := none }]
      else none }

/-- Environment where tool A succeeds with an empty feature list and every
other tool fails. -/
def toolAEmptyEnv : Env :=
  { testEnv with
    callTool := fun tool _ =>
      if tool = "A" then some [] else none }

/-- C5 (amended): with at least one applicable extractor, the call returns the
fulfilled extractors' features without raising whenever that set is non-empty,
and raises EXTRACTION_FAILED (the wrapped all-extractors-failed AggregateError)
exactly when no feature was produced and at least one extractor failed — so a
provider that succeeds with an empty feature list does not prevent the raise
(counterexample). -/
theorem c5_partial_failure_amended (env : Env) (db : DB) (url : String)
    (requested : List String) (ttl : Option Nat) (now : Nat) (r : LoadedResource)
    (hload : load env url now = Except.ok r) :
    let es := findExtractors
      (upsertResource db
        { url := url, type := r.type, lastProcessed := now,
          checksum := r.checksum, size := r.size, mimeType := r.mimeType })
      r.mimeType requested
    let rs := settledResults env es r ttl now
    es ≠ [] →
    (fulfilledFeatures rs ≠ [] →
      (mcpExtractFeatures env db url requested ttl true now).result =
        Except.ok (fulfilledFeatures rs)) ∧
    (fulfilledFeatures rs = [] → rejectedErrors rs ≠ [] →
      (mcpExtractFeatures env db url requested ttl true now).result =
        Except.error
          { code := ErrorCode.extractionFailed,
            message := "Failed to extract features from " ++ url ++
              ": All extractors failed" }) := by
  intro es rs hes
  have hes' : es.isEmpty = false := by
    cases h : es.isEmpty
    · rfl
    · exact absurd (List.isEmpty_iff.mp h) hes
  constructor
  · intro hful
    have hful' : (fulfilledFeatures rs).isEmpty = false := by
      cases h : (fulfilledFeatures rs).isEmpty
      · rfl
      · exact absurd (List.isEmpty_iff.mp h) hful
    simp only [mcpExtractFeatures, hload]
    simp [hes', hful']
  · intro hful herr
    have hful' : (fulfilledFeatures rs).isEmpty = true := by
      rw [List.isEmpty_iff]; exact hful
    have herr' : (rejectedErrors rs).isEmpty = false := by
      cases h : (rejectedErrors rs).isEmpty
      · rfl
      · exact absurd (List.isEmpty_iff.mp h) herr
    simp only [mcpExtractFeatures, hload]
    simp [hes', hful', herr']

/-- Witness for C5: tool A succeeds with one feature, tool B fails; the call
returns A's feature set and does not raise. -/
theorem c5_partial_failure_amended_witness :
    (mcpExtractFeatures toolASucceedsEnv twoToolDB "/a.txt" [] none true 0).result =
      Except.ok (fulfilledFeatures (settledResults toolASucceedsEnv
        (findExtractors
          (upsertResource twoToolDB
            { url := "/a.txt", type := ResourceType.file, lastProcessed := 0,
              checksum := "sha:hi", size := 2, mimeType := "text/plain" })
          "text/plain" [])
        { url := "file:///a.txt", type := ResourceType.file, lastProcessed := 0,
          checksum := "sha:hi", size := 2, mimeType := "text/plain", content := "hi" }
        none 0)) :=
  (c5_partial_failure_amended toolASucceedsEnv twoToolDB "/a.txt" [] none 0
    { url := "file:///a.txt", type := ResourceType.file, lastProcessed := 0,
      checksum := "sha:hi", size := 2, mimeType := "text/plain", content := "hi" }
    (by decide) (by decide)).1 (by decide)

/-- C5 counterexample: tool A succeeds (with an empty feature list) and tool B
fails, yet the call raises EXTRACTION_FAILED instead of returning the
successful provider's (empty) feature set. -/
theorem c5_empty_success_counterexample :
    toolAEmptyEnv.callTool "A" "hi" = some [] ∧
    (mcpExtractFeatures toolAEmptyEnv twoToolDB "/a.txt" [] none true 0).result =
      Except.error
        { code := ErrorCode.extractionFailed,
          message := "Failed to extract features from /a.txt: All extractors failed" } := by
  decide

/-! ## Claim C7: mode monotonicity of produced key sets -/

set_option maxHeartbeats 1600000 in
set_option maxRecDepth 8192 in
/-- C7: for a fixed resource (fresh extraction: no pre-existing keys), each
built-in extractor's produced key set under minimal is a subset of the set
under standard, which is a subset of the set under maximal. -/
theorem c7_mode_monotonicity (env : Env) (db : DB) (r : LoadedResource)
    (ttl now : Nat) :
    ((extractTextFeatures r ttl Mode.minimal [] true now).map (fun f => f.featureKey) ⊆
       (extractTextFeatures r ttl Mode.standard [] true now).map (fun f => f.featureKey) ∧
     (extractTextFeatures r ttl Mode.standard [] true now).map (fun f => f.featureKey) ⊆
       (extractTextFeatures r ttl Mode.maximal [] true now).map (fun f => f.featureKey)) ∧
    (((extractImageFeatures env db r ttl Mode.minimal [] true now).2).map (fun f => f.featureKey) ⊆
       ((extractImageFeatures env db r ttl Mode.standard [] true now).2).map (fun f => f.featureKey) ∧
     ((extractImageFeatures env db r ttl Mode.standard [] true now).2).map (fun f => f.featureKey) ⊆
       ((extractImageFeatures env db r ttl Mode.maximal [] true now).2).map (fun f => f.featureKey)) ∧
    (((extractVideoFeatures env db r ttl Mode.minimal [] true now).2).map (fun f => f.featureKey) ⊆
       ((extractVideoFeatures env db r ttl Mode.standard [] true now).2).map (fun f => f.featureKey) ∧
     ((extractVideoFeatures env db r ttl Mode.standard [] true now).2).map (fun f => f.featureKey) ⊆
       ((extractVideoFeatures env db r ttl Mode.maximal [] true now).2).map (fun f => f.featureKey)) ∧
    ((extractDirectoryFeatures env r ttl Mode.minimal [] true now).map (fun f => f.featureKey) ⊆
       (extractDirectoryFeatures env r ttl Mode.standard [] true now).map (fun f => f.featureKey) ∧
     (extractDirectoryFeatures env r ttl Mode.standard [] true now).map (fun f => f.featureKey) ⊆
       (extractDirectoryFeatures env r ttl Mode.maximal [] true now).map (fun f => f.featureKey)) := by
  refine ⟨⟨?_, ?_⟩, ⟨?_, ?_⟩, ⟨?_, ?_⟩, ⟨?_, ?_⟩⟩
  · show ["text.content", "text.word_count", "text.line_count", "text.char_count"] ⊆
      ["text.content", "text.word_count", "text.line_count", "text.char_count"]
    decide
  · show ["text.content", "text.word_count", "text.line_count", "text.char_count"] ⊆
      ["text.content", "text.word_count", "text.line_count", "text.char_count"]
    decide
  · show ([] : List String) ⊆
      ["image.thumbnail.small", "image.thumbnail.medium", "image.dimensions",
       "image.format"]
    decide
  · show ["image.thumbnail.small", "image.thumbnail.medium", "image.dimensions",
      "image.format"] ⊆
      ["image.thumbnail.small", "image.thumbnail.medium", "image.thumbnail.large",
       "image.dimensions", "image.format", "image.dominant_colors"]
    decide
  · simp only [extractVideoFeatures]
    cases hav : env.ffmpegAvailable
    · show ([] : List String) ⊆ []
      decide
    · cases hinfo : env.ffprobe r.content
      · show ([] : List String) ⊆ []
        decide
      · with_unfolding_all
          (exact (by decide :
            ([] : List String) ⊆ ["video.snapshot_50", "video.dimensions", "video.duration"]))
  · simp only [extractVideoFeatures]
    cases hav : env.ffmpegAvailable
    · show ([] : List String) ⊆ []
      decide
    · cases hinfo : env.ffprobe r.content
      · show ([] : List String) ⊆ []
        decide
      · with_unfolding_all
          (exact (by decide :
            ["video.snapshot_50", "video.dimensions", "video.duration"] ⊆
              ["video.snapshot_0", "video.snapshot_10", "video.snapshot_20",
               "video.snapshot_30", "video.snapshot_40", "video.snapshot_50",
               "video.snapshot_60", "video.snapshot_70", "video.snapshot_80",
               "video.snapshot_90", "video.dimensions", "video.duration"]))
  · simp only [extractDirectoryFeatures]
    cases hrd : env.readdir (stripFileScheme r.url)
    · show ([] : List String) ⊆ []
      decide
    · show ["directory.metadata", "directory.file_count", "directory.total_size",
        "directory.subdirectory_count"] ⊆
        ["directory.metadata", "directory.file_count", "directory.total_size",
         "directory.subdirectory_count"]
      decide
  · simp only [extractDirectoryFeatures]
    cases hrd : env.readdir (stripFileScheme r.url)
    · show ([] : List String) ⊆ []
      decide
    · show ["directory.metadata", "directory.file_count", "directory.total_size",
        "directory.subdirectory_count"] ⊆
        ["directory.metadata", "directory.file_count", "directory.total_size",
         "directory.subdirectory_count"]
      decide

/-! ## Counterexamples for C1, C2, C3 -/

/-- extractFeatures options with mode=minimal. -/
def minimalCall : ExtractOptions :=
  { defaultOptions with mode := some Mode.minimal }

/-- extractFeatures options with mode=standard, updateMissing=true. -/
def standardUpdateCall : ExtractOptions :=
  { defaultOptions with mode := some Mode.standard, updateMissing := some true }

/-- C1 counterexample: for an image resource, the first call returns the four
URL features (dot keys), but the second call — a cache hit that invokes no
provider — returns the six cached rows, including the two binary thumbnail
rows the first call stored under underscore keys: the returned Feature sets
are not identical. -/
theorem c1_image_cache_counterexample :
    featureKeysOf (extractFeatures 1 testEnv emptyDB "/img.png" defaultOptions 100) =
      ["image.thumbnail.small", "image.thumbnail.medium", "image.dimensions",
       "image.format"] ∧
    featureKeysOf (extractFeatures 1 testEnv
        (extractFeatures 1 testEnv emptyDB "/img.png" defaultOptions 100).db
        "/img.png" defaultOptions 200) =
      ["image.thumbnail_small", "image.thumbnail_medium", "image.thumbnail.small",
       "image.thumbnail.medium", "image.dimensions", "image.format"] ∧
    (extractFeatures 1 testEnv
        (extractFeatures 1 testEnv emptyDB "/img.png" defaultOptions 100).db
        "/img.png" defaultOptions 200).events = [] := by
  decide

/-- C2 counterexample: for a resource taking the directory branch (loaded from
the inode/directory URL), a standard updateMissing=true call after a minimal
extraction produces the ungated key extraction.summary — which was already
present and unexpired, and which is not in standard minus minimal — instead of
exactly the keys in standard minus minimal. -/
theorem c2_directory_summary_counterexample :
    featureKeysOf (extractFeatures 2 testEnv emptyDB "http://d/" minimalCall 100) =
      ["extraction.summary"] ∧
    (queryFeatures (extractFeatures 2 testEnv emptyDB "http://d/" minimalCall 100).db
        { url := some "http://d/", featureKeys := [], extractors := [],
          includeExpired := false } 200).map (fun f => f.featureKey) =
      ["extraction.summary"] ∧
    featureKeysOf (extractFeatures 2 testEnv
        (extractFeatures 2 testEnv emptyDB "http://d/" minimalCall 100).db
        "http://d/" standardUpdateCall 200) =
      ["extraction.summary"] ∧
    (standardFeatures.removeAll minimalFeatures).contains "extraction.summary" = false := by
  decide

/-- A database already holding the /a.txt resource (matching checksum, stale
lastProcessed = 5) with one unexpired cached feature. -/
def staleDB : DB :=
  { resources :=
      [{ url := "file:///a.txt", type := ResourceType.file, lastProcessed := 5,
         checksum := "sha:hi", size := 2, mimeType := "text/plain" }],
    features :=
      [mkFeature "file:///a.txt" "text.content" "hi" FeatureType.text 5 3600 "built-in"],
    extractors := [] }

/-- C3 counterexample: a successful cache-hit call at now = 50 returns the
cached features but leaves the database untouched — the Resource record keeps
lastProcessed = 5, so the upsert the claim requires on every successful call
did not happen. -/
theorem c3_cache_hit_counterexample :
    (extractFeatures 1 testEnv staleDB "/a.txt" defaultOptions 50).result =
      Except.ok
        [mkFeature "file:///a.txt" "text.content" "hi" FeatureType.text 5 3600 "built-in"] ∧
    (extractFeatures 1 testEnv staleDB "/a.txt" defaultOptions 50).db = staleDB ∧
    (getResource (extractFeatures 1 testEnv staleDB "/a.txt" defaultOptions 50).db
        "file:///a.txt").map (fun x => x.lastProcessed) = some 5 ∧
    (5 : Nat) ≠ 50 := by
  decide

/-! ## Claims C3 and C4: resource upsert and checksum invalidation -/

theorem storeFeatures_resources_eq (db : DB) (u : String) (is : List FeatureInput)
    (now : Nat) : (storeFeatures db u is now).resources = db.resources := rfl

theorem foldl_resources_invariant {α : Type} (step : DB → α → DB)
    (h : ∀ d t, (step d t).resources = d.resources) :
    ∀ (l : List α) (db : DB), (l.foldl step db).resources = db.resources := by
  intro l
  induction l with
  | nil => intro db; rfl
  | cons t ts ih =>
    intro db
    rw [List.foldl_cons, ih, h]

theorem extractImageFeatures_resources (env : Env) (db : DB) (r : LoadedResource)
    (ttl : Nat) (mode : Mode) (existingKeys : List String) (u : Bool) (now : Nat) :
    ((extractImageFeatures env db r ttl mode existingKeys u now).1).resources =
      db.resources := by
  simp only [extractImageFeatures]
  exact foldl_resources_invariant
    (fun (d : DB) (t : ThumbSpec) => storeFeatures d r.url
      [{ key := t.key, value := env.base64 t.buffer, type := FeatureType.binary,
         ttl := some ttl, extractorTool := "built-in" }] now)
    (fun d t => rfl) _ _

theorem extractVideoFeatures_resources (env : Env) (db : DB) (r : LoadedResource)
    (ttl : Nat) (mode : Mode) (existingKeys : List String) (u : Bool) (now : Nat) :
    ((extractVideoFeatures env db r ttl mode existingKeys u now).1).resources =
      db.resources := by
  simp only [extractVideoFeatures]
  cases env.ffmpegAvailable
  · rfl
  · simp only [Bool.not_true, Bool.false_eq_true, if_false]
    cases env.ffprobe r.content
    · rfl
    · exact foldl_resources_invariant
        (fun (d : DB) (s : Nat × String × String) => storeFeatures d r.url
          [{ key := videoSnapshotKey s.1, value := env.base64 s.2.1,
             type := FeatureType.binary, ttl := some ttl, extractorTool := "built-in" }]
          now)
        (fun d t => rfl) _ _

theorem extractDispatch_resources
    (recur : DB → String → ExtractOptions → Nat → ExtractResult) (fuel : Nat)
    (env : Env) (db : DB) (r : LoadedResource) (o : ExtractOptions) (now : Nat)
    (existing : List Feature) (hdir : directoryBranch r = false) :
    (extractDispatch recur fuel env db r o now existing).db.resources =
      upsertResourceList db.resources
        { url := r.url, type := r.type, lastProcessed := now,
          checksum := r.checksum, size := r.size, mimeType := r.mimeType } := by
  simp only [extractDispatch, hdir, Bool.false_eq_true, if_false]
  by_cases himg : strStartsWith r.mimeType "image/" = true
  · simp only [himg, if_true]
    by_cases hemp : ((extractImageFeatures env
        (upsertResource db
          { url := r.url, type := r.type, lastProcessed := now,
            checksum := r.checksum, size := r.size, mimeType := r.mimeType })
        r (jsOrNat o.ttl 86400) (o.mode.getD Mode.standard)
        (existing.map (fun f => f.featureKey)) (o.updateMissing != some false) now).2).isEmpty
    · simp only [hemp, if_true]
      rw [extractImageFeatures_resources]
      rfl
    · simp only [hemp, Bool.false_eq_true, if_false]
      rw [storeFeatures_resources_eq, extractImageFeatures_resources]
      rfl
  · simp only [himg, Bool.false_eq_true, if_false]
    by_cases hvid : strStartsWith r.mimeType "video/" = true
    · simp only [hvid, if_true]
      by_cases hemp : ((extractVideoFeatures env
          (upsertResource db
            { url := r.url, type := r.type, lastProcessed := now,
              checksum := r.checksum, size := r.size, mimeType := r.mimeType })
          r (jsOrNat o.ttl 86400) (o.mode.getD Mode.standard)
          (existing.map (fun f => f.featureKey)) (o.updateMissing != some false) now).2).isEmpty
      · simp only [hemp, if_true]
        rw [extractVideoFeatures_resources]
        rfl
      · simp only [hemp, Bool.false_eq_true, if_false]
        rw [storeFeatures_resources_eq, extractVideoFeatures_resources]
        rfl
    · simp only [hvid, Bool.false_eq_true, if_false]
      by_cases htxt : textBranch r = true
      · simp only [htxt, if_true]
        by_cases hemb : (o.includeEmbeddings && env.embeddingAvailable) = true
        · simp only [hemb, if_true]
          cases env.embeddingFeatures r.content <;>
            · split <;> first | rfl | (rw [storeFeatures_resources_eq]; rfl)
        · simp only [hemb, Bool.false_eq_true, if_false]
          split <;> first | rfl | (rw [storeFeatures_resources_eq]; rfl)
      · simp only [htxt, Bool.false_eq_true, if_false]
        rfl

theorem find_upsertResourceList :
    ∀ (l : List Resource) (rec : Resource),
      ∃ row : Resource,
        (upsertResourceList l rec).find? (fun x => x.url == rec.url) = some row ∧
        row.url = rec.url ∧ row.lastProcessed = rec.lastProcessed ∧
        row.checksum = rec.checksum := by
  intro l
  induction l with
  | nil =>
    intro rec
    refine ⟨rec, ?_, rfl, rfl, rfl⟩
    simp [upsertResourceList, List.find?]
  | cons x xs ih =>
    intro rec
    by_cases hx : (x.url == rec.url) = true
    · have hany : (x :: xs).any (fun y => y.url == rec.url) = true := by
        simp [List.any_cons, hx]
      let upd : Resource :=
        { x with
          lastProcessed := rec.lastProcessed, checksum := rec.checksum,
          size := rec.size, mimeType := rec.mimeType }
      refine ⟨upd, ?_, ?_, rfl, rfl⟩
      · simp only [upsertResourceList, hany, if_true, List.map_cons, hx, if_pos]
        rw [List.find?_cons_of_pos]
        simpa using hx
      · simpa using hx
    · have hxf : (x.url == rec.url) = false := by
        simpa using hx
      rcases ih rec with ⟨row, hrow, h1, h2, h3⟩
      unfold upsertResourceList at hrow
      by_cases hany : xs.any (fun y => y.url == rec.url) = true
      · rw [if_pos hany] at hrow
        have hany' : (x :: xs).any (fun y => y.url == rec.url) = true := by
          simp [List.any_cons, hany]
        refine ⟨row, ?_, h1, h2, h3⟩
        simp only [upsertResourceList, hany', if_true, List.map_cons, hxf,
          Bool.false_eq_true, if_false]
        rw [List.find?_cons_of_neg]
        · exact hrow
        · simp [hxf]
      · rw [if_neg hany] at hrow
        have hany' : ¬((x :: xs).any (fun y => y.url == rec.url) = true) := by
          simp only [List.any_cons, Bool.or_eq_true]
          rintro (h | h)
          · exact absurd h hx
          · exact hany h
        refine ⟨row, ?_, h1, h2, h3⟩
        have hout : upsertResourceList (x :: xs) rec = (x :: xs) ++ [rec] := by
          unfold upsertResourceList
          rw [if_neg hany']
        rw [hout, List.cons_append, List.find?_cons_of_neg, hrow]
        simp [hxf]

theorem getResource_extractDispatch
    (recur : DB → String → ExtractOptions → Nat → ExtractResult) (fuel : Nat)
    (env : Env) (db : DB) (r : LoadedResource) (o : ExtractOptions) (now : Nat)
    (existing : List Feature) (hdir : directoryBranch r = false) :
    ∃ row : Resource,
      getResource (extractDispatch recur fuel env db r o now existing).db r.url =
        some row ∧
      row.lastProcessed = now ∧ row.checksum = r.checksum := by
  rcases find_upsertResourceList db.resources
      { url := r.url, type := r.type, lastProcessed := now, checksum := r.checksum,
        size := r.size, mimeType := r.mimeType } with ⟨row, hrow, h1, h2, h3⟩
  refine ⟨row, ?_, h2, h3⟩
  unfold getResource
  rw [extractDispatch_resources recur fuel env db r o now existing hdir]
  exact hrow

/-- C3 (amended): every extractFeatures call that completes successfully
without taking the cache-hit early return upserts the Resource record with the
freshly computed checksum and a lastProcessed timestamp equal to the call's
clock (stated for resources outside the directory branch, whose dispatch does
not recurse into children); a cache hit returns before the upsert statement is
reached and leaves the stored Resource record untouched (counterexample). -/
theorem c3_resource_upsert_amended (fuel : Nat) (env : Env) (db : DB)
    (url : String) (o : ExtractOptions) (now : Nat) (r : LoadedResource)
    (hload : load env url now = Except.ok r)
    (hnohit : (!(o.updateMissing.getD false) &&
      !(cachedFeatures db r o now).isEmpty) = false)
    (hdir : directoryBranch r = false) :
    ∃ row : Resource,
      getResource (extractFeatures (fuel + 1) env db url o now).db r.url = some row ∧
      row.checksum = r.checksum ∧ row.lastProcessed = now := by
  have hstep : extractFeatures (fuel + 1) env db url o now =
      extractDispatch (fun d u oo n => extractFeatures fuel env d u oo n) fuel env db
        r o now (cachedFeatures db r o now) := by
    simp only [extractFeatures, hload]
    rw [hnohit]
    simp
  rw [hstep]
  rcases getResource_extractDispatch (fun d u oo n => extractFeatures fuel env d u oo n)
      fuel env db r o now (cachedFeatures db r o now) hdir with ⟨row, hrow, h1, h2⟩
  exact ⟨row, hrow, h2, h1⟩

/-- Witness for C3 at a fresh text extraction. -/
theorem c3_resource_upsert_amended_witness :
    ∃ row : Resource,
      getResource (extractFeatures 1 testEnv emptyDB "/a.txt" defaultOptions 7).db
        "file:///a.txt" = some row ∧
      row.checksum = "sha:hi" ∧ row.lastProcessed = 7 :=
  c3_resource_upsert_amended 0 testEnv emptyDB "/a.txt" defaultOptions 7
    { url := "file:///a.txt", type := ResourceType.file, lastProcessed := 7,
      checksum := "sha:hi", size := 2, mimeType := "text/plain", content := "hi" }
    (by decide) (by decide) (by decide)

theorem extractDispatch_force_eq
    (recur : DB → String → ExtractOptions → Nat → ExtractResult) (fuel : Nat)
    (env : Env) (db : DB) (r : LoadedResource) (now : Nat) (existing : List Feature)
    (t : Option Nat) (b1 b2 ie sd : Bool) (m : Option Mode) (um : Option Bool)
    (hdir : directoryBranch r = false) :
    extractDispatch recur fuel env db r ⟨t, b1, ie, sd, m, um⟩ now existing =
      extractDispatch recur fuel env db r ⟨t, b2, ie, sd, m, um⟩ now existing := by
  simp only [extractDispatch, hdir, Bool.false_eq_true, if_false]

/-- C4: when the stored Resource's checksum differs from the freshly computed
one, a force=false call ignores every previously cached feature (the cached
set it works from is empty) and behaves exactly like the same call with
force=true — a full recompute as if nothing were cached (stated for resources
outside the directory branch, whose dispatch recursion forwards the force flag
to children). -/
theorem c4_checksum_invalidation (fuel : Nat) (env : Env) (db : DB) (url : String)
    (o : ExtractOptions) (now : Nat) (r : LoadedResource) (er : Resource)
    (hload : load env url now = Except.ok r)
    (hres : getResource db r.url = some er)
    (hne : er.checksum ≠ r.checksum)
    (hforce : o.force = false)
    (hdir : directoryBranch r = false) :
    cachedFeatures db r o now = [] ∧
    extractFeatures (fuel + 1) env db url o now =
      extractFeatures (fuel + 1) env db url { o with force := true } now := by
  have hbeq : (er.checksum == r.checksum) = false := by
    simp only [beq_eq_false_iff_ne, ne_eq]
    exact hne
  obtain ⟨ot, ofo, oie, osd, om, oum⟩ := o
  simp only [ExtractOptions.force] at hforce
  subst hforce
  have hcache : cachedFeatures db r ⟨ot, false, oie, osd, om, oum⟩ now = [] := by
    simp [cachedFeatures, hres, hbeq]
  have hcache2 : cachedFeatures db r ⟨ot, true, oie, osd, om, oum⟩ now = [] := by
    simp [cachedFeatures]
  refine ⟨hcache, ?_⟩
  show extractFeatures (fuel + 1) env db url ⟨ot, false, oie, osd, om, oum⟩ now =
    extractFeatures (fuel + 1) env db url ⟨ot, true, oie, osd, om, oum⟩ now
  simp only [extractFeatures, hload]
  rw [hcache, hcache2]
  simp only [List.isEmpty_nil, Bool.not_true, Bool.and_false, Bool.false_eq_true,
    if_false]
  exact extractDispatch_force_eq _ fuel env db r now [] ot false true oie osd om oum hdir

/-- A database holding /a.txt with a stale checksum and one cached feature. -/
def mismatchDB : DB :=
  { resources :=
      [{ url := "file:///a.txt", type := ResourceType.file, lastProcessed := 5,
         checksum := "sha:old", size := 3, mimeType := "text/plain" }],
    features :=
      [mkFeature "file:///a.txt" "text.content" "old" FeatureType.text 5 999999 "built-in"],
    extractors := [] }

/-- Witness for C4: the stored checksum sha:old differs from the fresh sha:hi,
so the force=false call coincides with the force=true call. -/
theorem c4_checksum_invalidation_witness :
    cachedFeatures mismatchDB
      { url := "file:///a.txt", type := ResourceType.file, lastProcessed := 50,
        checksum := "sha:hi", size := 2, mimeType := "text/plain", content := "hi" }
      defaultOptions 50 = [] ∧
    extractFeatures 1 testEnv mismatchDB "/a.txt" defaultOptions 50 =
      extractFeatures 1 testEnv mismatchDB "/a.txt"
        { defaultOptions with force := true } 50 :=
  c4_checksum_invalidation 0 testEnv mismatchDB "/a.txt" defaultOptions 50
    { url := "file:///a.txt", type := ResourceType.file, lastProcessed := 50,
      checksum := "sha:hi", size := 2, mimeType := "text/plain", content := "hi" }
    { url := "file:///a.txt", type := ResourceType.file, lastProcessed := 5,
      checksum := "sha:old", size := 3, mimeType := "text/plain" }
    (by decide) (by decide) (by decide) (by decide) (by decide)

/-! ## Claim C1: idempotence of unchanged-resource extraction -/


/-- The four rows a fresh text extraction produces and stores (options ttl
absent: ttl = 86400). -/
def textFreshRows (r : LoadedResource) (t : Nat) : List Feature :=
  [mkFeature r.url "text.content" (strTake r.content 10000) FeatureType.text t 86400 "built-in",
   mkFeature r.url "text.word_count"
     (toString (((strSplitWhitespace r.content).filter (fun w => w.length > 0)).length))
     FeatureType.number t 86400 "built-in",
   mkFeature r.url "text.line_count" (toString (strSplitOn r.content "\n").length)
     FeatureType.number t 86400 "built-in",
   mkFeature r.url "text.char_count" (toString r.content.length)
     FeatureType.number t 86400 "built-in"]

theorem fresh_text_extract (env : Env) (db0 : DB) (path : String) (t1 : Nat)
    (r : LoadedResource) (sd : Bool) (mo : Option Mode)
    (hload : load env path t1 = Except.ok r)
    (hmime : r.mimeType = "text/plain")
    (htype : r.type = ResourceType.file)
    (hres : getResource db0 r.url = none)
    (hfeat : db0.features = []) :
    extractFeatures 1 env db0 path ⟨none, false, false, sd, mo, none⟩ t1 =
      { db := { resources := upsertResourceList db0.resources
                  { url := r.url, type := r.type, lastProcessed := t1,
                    checksum := r.checksum, size := r.size, mimeType := r.mimeType },
                features := textFreshRows r t1,
                extractors := db0.extractors },
        result := Except.ok (textFreshRows r t1),
        events := [ExtractEvent.textExtraction] } := by
  have hdir : directoryBranch r = false := by
    unfold directoryBranch
    rw [hmime, htype]
    decide
  have himg : strStartsWith r.mimeType "image/" = false := by
    rw [hmime]; decide
  have hvid : strStartsWith r.mimeType "video/" = false := by
    rw [hmime]; decide
  have htxt : textBranch r = true := by
    unfold textBranch
    rw [hmime]
    decide
  have hg1 : shouldExtractFeature "text.content" (mo.getD Mode.standard) [] true = true := by
    cases mo with
    | none => decide
    | some m => cases m <;> decide
  have hg2 : shouldExtractFeature "text.word_count" (mo.getD Mode.standard) [] true = true := by
    cases mo with
    | none => decide
    | some m => cases m <;> decide
  have hg3 : shouldExtractFeature "text.line_count" (mo.getD Mode.standard) [] true = true := by
    cases mo with
    | none => decide
    | some m => cases m <;> decide
  have hg4 : shouldExtractFeature "text.char_count" (mo.getD Mode.standard) [] true = true := by
    cases mo with
    | none => decide
    | some m => cases m <;> decide
  have hfeats : extractTextFeatures r 86400 (mo.getD Mode.standard) [] true t1 =
      textFreshRows r t1 := by
    simp only [extractTextFeatures, hg1, hg2, hg3, hg4, if_true, textFreshRows]
    rfl
  have hcache0 : cachedFeatures db0 r ⟨none, false, false, sd, mo, none⟩ t1 = [] := by
    simp [cachedFeatures, hres]
  simp only [extractFeatures, hload]
  rw [hcache0]
  simp only [List.isEmpty_nil, Bool.not_true, Bool.and_false, Bool.false_eq_true,
    if_false]
  simp only [extractDispatch, hdir, himg, hvid, htxt, Bool.false_eq_true, if_false,
    if_true, List.map_nil]
  simp only [show ((none : Option Bool) != some false) = true from rfl,
    show jsOrNat none 86400 = 86400 from rfl, hfeats]
  simp only [show ((⟨none, false, false, sd, mo, none⟩ : ExtractOptions).includeEmbeddings) = false from rfl,
    Bool.false_and, if_false]
  simp only [textFreshRows, List.isEmpty_cons, Bool.false_eq_true, if_false]
  simp [storeFeatures, upsertResource, hfeat, upsertFeatureRow, featureRowOfInput,
    inputOfFeature, mkFeature, jsOrNat, List.any_cons, List.any_nil, beq_self_eq_true]


theorem extract_cache_hit_general (fuel : Nat) (env : Env) (db : DB) (url : String)
    (o : ExtractOptions) (now : Nat) (r : LoadedResource)
    (hload : load env url now = Except.ok r)
    (hum : o.updateMissing.getD false = false)
    (hne : cachedFeatures db r o now ≠ []) :
    extractFeatures (fuel + 1) env db url o now =
      { db := db, result := Except.ok (cachedFeatures db r o now), events := [] } := by
  have h1 : (cachedFeatures db r o now).isEmpty = false := by
    cases h : (cachedFeatures db r o now).isEmpty
    · rfl
    · exact absurd (List.isEmpty_iff.mp h) hne
  simp only [extractFeatures, hload]
  rw [hum, h1]
  simp

theorem cachedFeatures_all (db : DB) (r2 : LoadedResource) (o : ExtractOptions)
    (now : Nat) (rec : Resource) (rs : List Resource)
    (hdb : db.resources = upsertResourceList rs rec)
    (hforce : o.force = false)
    (hurl : rec.url = r2.url)
    (hchk : rec.checksum = r2.checksum)
    (hall : ∀ f ∈ db.features, f.resourceUrl = r2.url ∧ now < f.expiresAt) :
    cachedFeatures db r2 o now = db.features := by
  rcases find_upsertResourceList rs rec with ⟨row, hrow, hru, hrl, hrc⟩
  have hget : getResource db r2.url = some row := by
    unfold getResource
    rw [hdb, ← hurl]
    exact hrow
  have hbeq : (row.checksum == r2.checksum) = true := by
    rw [hrc, hchk]
    exact beq_self_eq_true r2.checksum
  unfold cachedFeatures
  rw [hforce]
  simp only [Bool.false_eq_true, if_false, hget, hbeq, if_true]
  unfold queryFeatures
  apply List.filter_eq_self.mpr
  intro f hf
  rcases hall f hf with ⟨hfu, hfe⟩
  simp [matchesQuery, hfu, hfe]


/-- C1 (amended): with force=false, an unchanged checksum, unexpired cached
rows present and updateMissing not requested, the second extractFeatures call
returns exactly the cached unexpired feature rows for the resource, changes
nothing in the database and invokes no extraction provider; for a plain text
resource this cached set is identical to the Feature records the first call
returned, so the second call's result coincides with the first call's — but it
is not identical in general: for an image resource the cache also holds the
binary thumbnail rows stored under underscore keys (counterexample). -/
theorem c1_idempotence_amended :
    (∀ (fuel : Nat) (env : Env) (db : DB) (url : String) (o : ExtractOptions)
       (now : Nat) (r : LoadedResource),
       load env url now = Except.ok r →
       o.updateMissing.getD false = false →
       cachedFeatures db r o now ≠ [] →
       extractFeatures (fuel + 1) env db url o now =
         { db := db, result := Except.ok (cachedFeatures db r o now), events := [] }) ∧
    (∀ (env : Env) (db0 : DB) (path : String) (t1 t2 : Nat) (r r2 : LoadedResource),
       load env path t1 = Except.ok r →
       load env path t2 = Except.ok r2 →
       r.mimeType = "text/plain" → r.type = ResourceType.file →
       r2.url = r.url → r2.checksum = r.checksum →
       getResource db0 r.url = none → db0.features = [] →
       t2 < t1 + 86400 →
       extractFeatures 1 env (extractFeatures 1 env db0 path defaultOptions t1).db
           path defaultOptions t2 =
         { db := (extractFeatures 1 env db0 path defaultOptions t1).db,
           result := (extractFeatures 1 env db0 path defaultOptions t1).result,
           events := [] }) := by
  constructor
  · intro fuel env db url o now r h1 h2 h3
    exact extract_cache_hit_general fuel env db url o now r h1 h2 h3
  · intro env db0 path t1 t2 r r2 hl1 hl2 hmime htype hurl hchk hres hfeat ht
    have h1 : extractFeatures 1 env db0 path defaultOptions t1 = _ :=
      fresh_text_extract env db0 path t1 r false none hl1 hmime htype hres hfeat
    rw [h1]
    have hcach : cachedFeatures
        { resources := upsertResourceList db0.resources
            { url := r.url, type := r.type, lastProcessed := t1,
              checksum := r.checksum, size := r.size, mimeType := r.mimeType },
          features := textFreshRows r t1, extractors := db0.extractors }
        r2 defaultOptions t2 = textFreshRows r t1 := by
      apply cachedFeatures_all _ _ _ _
        { url := r.url, type := r.type, lastProcessed := t1,
          checksum := r.checksum, size := r.size, mimeType := r.mimeType }
        db0.resources rfl rfl hurl.symm hchk.symm
      intro f hf
      simp only [textFreshRows, mkFeature, List.mem_cons, List.not_mem_nil,
        or_false] at hf
      rcases hf with h | h | h | h <;> subst h <;> exact ⟨hurl.symm, ht⟩
    have hne2 : cachedFeatures
        { resources := upsertResourceList db0.resources
            { url := r.url, type := r.type, lastProcessed := t1,
              checksum := r.checksum, size := r.size, mimeType := r.mimeType },
          features := textFreshRows r t1, extractors := db0.extractors }
        r2 defaultOptions t2 ≠ [] := by
      rw [hcach]
      simp [textFreshRows]
    have h2 : extractFeatures 1 env
        { resources := upsertResourceList db0.resources
            { url := r.url, type := r.type, lastProcessed := t1,
              checksum := r.checksum, size := r.size, mimeType := r.mimeType },
          features := textFreshRows r t1, extractors := db0.extractors }
        path defaultOptions t2 = _ :=
      extract_cache_hit_general 0 env _ path defaultOptions t2 r2 hl2 rfl hne2
    rw [h2, hcach]

theorem c1_idempotence_amended_witness :
    extractFeatures 1 testEnv (extractFeatures 1 testEnv emptyDB "/a.txt"
        defaultOptions 100).db "/a.txt" defaultOptions 200 =
      { db := (extractFeatures 1 testEnv emptyDB "/a.txt" defaultOptions 100).db,
        result := (extractFeatures 1 testEnv emptyDB "/a.txt" defaultOptions 100).result,
        events := [] } :=
  by
  apply c1_idempotence_amended.2 testEnv emptyDB "/a.txt" 100 200
    { url := "file:///a.txt", type := ResourceType.file, lastProcessed := 100,
      checksum := "sha:hi", size := 2, mimeType := "text/plain", content := "hi" }
    { url := "file:///a.txt", type := ResourceType.file, lastProcessed := 200,
      checksum := "sha:hi", size := 2, mimeType := "text/plain", content := "hi" }
    <;> decide

/-! ## Claim C2: gap filling under updateMissing -/

/-- C2 (amended): updateMissing=true skips every feature key already present
and unexpired, leaving its stored value untouched, and under mode=standard the
gate admits exactly the standard-set keys that are not already present — so a
standard updateMissing=true call after a minimal extraction adds exactly the
built-in keys in standard minus minimal for the resource's media type (for an
image, the four image keys; for plain text, nothing, with the feature rows
unchanged). The claim's unqualified "exactly standard minus minimal" fails on
the directory branch, whose extraction.summary row bypasses the gate
(counterexample). -/
theorem c2_gap_filling_amended :
    (∀ (k : String) (m : Mode) (ex : List String), ex.contains k = true →
       shouldExtractFeature k m ex true = false) ∧
    (∀ (k : String) (ex : List String),
       shouldExtractFeature k Mode.standard ex true =
         (standardFeatures.contains k && !ex.contains k)) ∧
    featureKeysOf (extractFeatures 1 testEnv emptyDB "/img.png" minimalCall 100) = [] ∧
    featureKeysOf (extractFeatures 1 testEnv
        (extractFeatures 1 testEnv emptyDB "/img.png" minimalCall 100).db
        "/img.png" standardUpdateCall 200) =
      (standardFeatures.removeAll minimalFeatures).filter
        (fun k => strStartsWith k "image.") ∧
    (extractFeatures 1 testEnv
        (extractFeatures 1 testEnv emptyDB "/a.txt" minimalCall 100).db
        "/a.txt" standardUpdateCall 200).db.features =
      (extractFeatures 1 testEnv emptyDB "/a.txt" minimalCall 100).db.features ∧
    featureKeysOf (extractFeatures 1 testEnv
        (extractFeatures 1 testEnv emptyDB "/a.txt" minimalCall 100).db
        "/a.txt" standardUpdateCall 200) = [] := by
  refine ⟨?_, ?_, by decide, by decide, by decide, by decide⟩
  · intro k m ex h
    have hx : k ∈ ex := by simpa using h
    simp [shouldExtractFeature, h, hx]
  · intro k ex
    cases h : ex.contains k
    · have hx : k ∉ ex := by simpa using h
      simp [shouldExtractFeature, h, hx]
    · have hx : k ∈ ex := by simpa using h
      simp [shouldExtractFeature, h, hx]

theorem c2_gap_filling_amended_witness :
    shouldExtractFeature "text.content" Mode.standard ["text.content"] true = false :=
  c2_gap_filling_amended.1 "text.content" Mode.standard ["text.content"] (by decide)

end FeatureStore
